import Mathlib

/-!
# caddy-route-metrics: a shallow embedding of `metrics.go`

The middleware `Metrics` wraps the response writer of one request, captures a
route label from a response header when the downstream handler calls
`WriteHeader`, removes that header, and records one histogram observation
labelled `(method, route)` when a label was captured.

The repository code embedded here is `Metrics.Validate`,
`Metrics.UnmarshalCaddyfile`, `Metrics.ServeHTTP` (with its `WriteHeader` hook)
and the test helper `durationCount`.  The collaborators that the code calls are
libraries outside the repository; they are modelled by small executable
definitions that follow their documented behaviour:

* `net/http`: `Header` (`Get`, `Set`, `Add`, `Del` on canonical keys) and the
  server's `ResponseWriter` (`WriteHeader`, `Write`, `Flush`, `ReadFrom`);
* `httpsnoop`: `Wrap` replaces only the hooked method, every other call is
  forwarded to the underlying writer; `CaptureMetrics` runs the handler on the
  wrapped writer and measures the elapsed time;
* `prometheus`: a `HistogramVec` keyed by the label values;
* `caddyfile`: the token `Dispenser`.

Time is not computed: the duration measured by `CaptureMetrics` is an input of
`ServeHTTP`, in nanoseconds.  A downstream handler is represented by a completed
run: the calls it makes on the writer it was given, in order, and the error it
returns.

Go strings are byte sequences.  Header values and the request method, which
become label values, are modelled as byte strings (`GoString`), so that a value
that is not valid UTF-8 can be written; `WithLabelValues` panics on such a label
value, and the result of `ServeHTTP` records whether the call panicked.  Header
names, token texts and error texts are Lean strings.

Boundaries of the model.  A downstream run that panics is not a completed run:
status codes are the ones `WriteHeader` accepts.  The module is provisioned
(`durs` is not nil).  The Caddyfile is taken after lexing, as a list of tokens.
-/

namespace RouteMetrics

/-! ## Go strings -/

/-- A Go string: a sequence of bytes, not necessarily valid UTF-8. -/
structure GoString where
  bytes : List Nat
deriving DecidableEq

/-- The UTF-8 encoding of a character (`utf8.EncodeRune`). -/
def encodeRune (c : Char) : List Nat :=
  let n := c.toNat
  if n < 128 then [n]
  else if n < 2048 then [192 + n / 64, 128 + n % 64]
  else if n < 65536 then [224 + n / 4096, 128 + n / 64 % 64, 128 + n % 64]
  else [240 + n / 262144, 128 + n / 4096 % 64, 128 + n / 64 % 64, 128 + n % 64]

/-- The Go string written as a string literal: the UTF-8 bytes of the text. -/
def GoString.ofString (s : String) : GoString :=
  { bytes := s.data.flatMap encodeRune }

instance : Coe String GoString := ⟨GoString.ofString⟩

/-- The scan of `utf8.ValidString`: `pending` continuation bytes are still
expected, the next of them within `lo..hi` (the accept ranges of the encoding:
no overlong forms, no surrogates, nothing above U+10FFFF). -/
def validUTF8From : Nat → Nat → Nat → List Nat → Bool
  | 0, _, _, [] => true
  | _ + 1, _, _, [] => false
  | 0, _, _, b :: rest =>
    if b < 128 then validUTF8From 0 128 191 rest
    else if 194 ≤ b ∧ b ≤ 223 then validUTF8From 1 128 191 rest
    else if b = 224 then validUTF8From 2 160 191 rest
    else if (225 ≤ b ∧ b ≤ 236) ∨ b = 238 ∨ b = 239 then validUTF8From 2 128 191 rest
    else if b = 237 then validUTF8From 2 128 159 rest
    else if b = 240 then validUTF8From 3 144 191 rest
    else if 241 ≤ b ∧ b ≤ 243 then validUTF8From 3 128 191 rest
    else if b = 244 then validUTF8From 3 128 143 rest
    else false
  | pending + 1, lo, hi, b :: rest =>
    if lo ≤ b ∧ b ≤ hi then validUTF8From pending 128 191 rest else false

/-- The string consists of valid UTF-8 sequences only (`utf8.ValidString`). -/
def ValidString (s : GoString) : Bool :=
  validUTF8From 0 128 191 s.bytes

/-! ## net/http: header map -/

/-- Token bytes of a header field name (`validHeaderFieldByte` of net/textproto). -/
def validHeaderFieldByte (c : Char) : Bool :=
  c.isAlphanum || "!#$%&*+-.^_|~".data.contains c || c.toNat = 39 || c.toNat = 96

/-- Second loop of `canonicalMIMEHeaderKey`: upper case for the first letter and
after each dash, lower case elsewhere. -/
def canonicalizeBytes : Bool → List Char → List Char
  | _, [] => []
  | upper, c :: cs =>
    let c1 := if upper && c.isLower then c.toUpper
              else if !upper && c.isUpper then c.toLower
              else c
    c1 :: canonicalizeBytes (c1 == '-') cs

/-- The canonical form of a header key (`textproto.CanonicalMIMEHeaderKey`): a key
holding a byte that is not a token byte is returned unchanged. -/
def CanonicalMIMEHeaderKey (s : String) : String :=
  if s.data.all validHeaderFieldByte then String.mk (canonicalizeBytes true s.data) else s

/-- An `http.Header`: canonical key and the values stored under it. -/
abbrev Header := List (String × List GoString)

namespace Header

/-- Values stored under an already canonical key (the Go map lookup `h[key]`). -/
def lookup (h : Header) (key : String) : Option (List GoString) :=
  match h with
  | [] => none
  | (k, vs) :: rest => if k = key then some vs else lookup rest key

/-- Removes the entry of an already canonical key (the Go builtin `delete(h, key)`). -/
def delete (h : Header) (key : String) : Header :=
  h.filter (fun e => decide (e.1 ≠ key))

/-- The first value associated with the key, or the empty string (`Header.Get`). -/
def Get (h : Header) (key : String) : GoString :=
  match lookup h (CanonicalMIMEHeaderKey key) with
  | some (v :: _) => v
  | _ => ""

/-- Replaces the values of the key by the single value (`Header.Set`). -/
def Set (h : Header) (key : String) (value : GoString) : Header :=
  (CanonicalMIMEHeaderKey key, [value]) :: delete h (CanonicalMIMEHeaderKey key)

/-- Appends the value to the values of the key (`Header.Add`). -/
def Add (h : Header) (key : String) (value : GoString) : Header :=
  match lookup h (CanonicalMIMEHeaderKey key) with
  | some vs => (CanonicalMIMEHeaderKey key, vs ++ [value]) :: delete h (CanonicalMIMEHeaderKey key)
  | none => (CanonicalMIMEHeaderKey key, [value]) :: h

/-- Deletes the values of the key (`Header.Del`). -/
def Del (h : Header) (key : String) : Header :=
  delete h (CanonicalMIMEHeaderKey key)

/-- The header set has an entry for the key. -/
def Has (h : Header) (key : String) : Bool :=
  (lookup h (CanonicalMIMEHeaderKey key)).isSome

end Header

/-! ## net/http: the server's response writer -/

/-- A status code accepted by `WriteHeader` (`checkWriteHeaderCode` rejects a code
below 100 or above 999 by a panic, so a completed run only uses these). -/
structure StatusCode where
  code : Nat
  valid : 100 ≤ code ∧ code ≤ 999

/-- A 1xx status other than 101: its headers are sent at once and the response
stays open for the final header. -/
def StatusCode.informational (c : StatusCode) : Bool :=
  decide (c.code ≤ 199) && decide (c.code ≠ 101)

/-- The response writer handed to the middleware. `header` is the map returned
by `Header()`; `sent` holds the header blocks that left for the client, in order,
each with its status code; `written` holds the bytes passed to `Write`. -/
structure ResponseWriter where
  header : Header
  wroteHeader : Bool
  sent : List (Nat × Header)
  written : List Nat

namespace ResponseWriter

/-- The writer's own `WriteHeader`: a call after the final header is ignored; a
1xx code sends the current headers and leaves the response open; any other code
sends the current headers as the final header. -/
def WriteHeader (w : ResponseWriter) (code : StatusCode) : ResponseWriter :=
  if w.wroteHeader then w
  else if code.informational then { w with sent := w.sent ++ [(code.code, w.header)] }
  else { w with wroteHeader := true, sent := w.sent ++ [(code.code, w.header)] }

/-- The writer's own `Write`: when the final header has not been written it calls
its own `WriteHeader(http.StatusOK)` first. -/
def Write (w : ResponseWriter) (p : List Nat) : ResponseWriter :=
  let w1 := if w.wroteHeader then w else w.WriteHeader ⟨200, by decide⟩
  { w1 with written := w1.written ++ p }

/-- The writer's own `Flush` (`http.Flusher`): when the final header has not been
written it calls its own `WriteHeader(http.StatusOK)` first. -/
def Flush (w : ResponseWriter) : ResponseWriter :=
  if w.wroteHeader then w else w.WriteHeader ⟨200, by decide⟩

/-- The writer's own `ReadFrom` (`io.ReaderFrom`), `p` being the bytes read from
the source: the header is written as by `Write`, then the bytes. -/
def ReadFrom (w : ResponseWriter) (p : List Nat) : ResponseWriter :=
  let w1 := if w.wroteHeader then w else w.WriteHeader ⟨200, by decide⟩
  { w1 with written := w1.written ++ p }

end ResponseWriter

/-! ## prometheus: the histogram vector -/

/-- One series of the vector: number of samples and their sum (nanoseconds). -/
structure Histogram where
  sampleCount : Nat
  sampleSum : Nat
deriving DecidableEq

/-- A `prometheus.HistogramVec` with the labels `method` and `route`. -/
abbrev HistogramVec := List ((GoString × GoString) × Histogram)

/-- The check `validateLabelValues` of prometheus: every label value is valid
UTF-8 (the number of values is fixed by the call). -/
def validateLabelValues (vals : List GoString) : Bool :=
  vals.all ValidString

/-- One sample added to the series of the label pair, which is created when
missing. -/
def HistogramVec.addSample (hv : HistogramVec) (method route : GoString) (d : Nat) :
    HistogramVec :=
  match hv with
  | [] => [((method, route), ⟨1, d⟩)]
  | (k, h) :: rest =>
    if k = (method, route) then (k, ⟨h.sampleCount + 1, h.sampleSum + d⟩) :: rest
    else (k, h) :: HistogramVec.addSample rest method route d

/-- The vector after the statement `WithLabelValues(method, route).Observe(d)`:
the series receives one sample; when a label value is not valid UTF-8,
`WithLabelValues` panics and the vector is left as it was. -/
def HistogramVec.Observe (hv : HistogramVec) (method route : GoString) (d : Nat) :
    HistogramVec :=
  if validateLabelValues [method, route] then hv.addSample method route d else hv

/-- The test helper `durationCount`: sample count of the series
`(method, route)`, 0 when the series does not exist. -/
def durationCount (hv : HistogramVec) (method route : GoString) : Nat :=
  match hv with
  | [] => 0
  | (k, h) :: rest =>
    if k = (method, route) then h.sampleCount else durationCount rest method route

/-- Number of samples over all series of the vector. -/
def totalCount (hv : HistogramVec) : Nat :=
  (hv.map (fun e => e.2.sampleCount)).sum

/-! ## The middleware -/

/-- The module `Metrics`: the configured header name and the histogram vector. -/
structure Metrics where
  Header : String
  durs : HistogramVec

/-- The part of `http.Request` the middleware reads. -/
structure Request where
  Method : GoString
  URL : String

/-- An error value returned by a handler. -/
structure GoError where
  text : String
deriving DecidableEq

/-- A call made by the downstream handler on the writer it was given. -/
inductive WriterOp where
  | HeaderSet (key : String) (value : GoString)
  | HeaderAdd (key : String) (value : GoString)
  | HeaderDel (key : String)
  | WriteHeader (code : StatusCode)
  | Write (p : List Nat)
  | Flush
  | ReadFrom (p : List Nat)

/-- A completed run of `next.ServeHTTP(w, r)`: the calls made on the writer and
the returned error (`none` is nil). -/
structure HandlerRun where
  ops : List WriterOp
  err : Option GoError

/-- A downstream handler (`caddyhttp.Handler`). -/
abbrev Handler := Request → HandlerRun

/-- What `ServeHTTP` mutates while the downstream handler runs: the underlying
writer `w` and the local variable `route`. -/
structure ServeState where
  w : ResponseWriter
  route : GoString

/-- The `WriteHeader` hook of `ServeHTTP`:
`if v := w.Header().Get(m.Header); v != "" { route = v; w.Header().Del(m.Header) }; orig(code)`. -/
def writeHeaderHook (m : Metrics) (s : ServeState) (code : StatusCode) : ServeState :=
  let v := s.w.header.Get m.Header
  let s1 : ServeState :=
    if v ≠ "" then { w := { s.w with header := s.w.header.Del m.Header }, route := v } else s
  { s1 with w := s1.w.WriteHeader code }

/-- One call on the writer built by `httpsnoop.Wrap(w, hooks)`: `WriteHeader`
goes through the hook, every other call reaches the underlying writer directly. -/
def wrappedCall (m : Metrics) (s : ServeState) : WriterOp → ServeState
  | .HeaderSet k v => { s with w := { s.w with header := s.w.header.Set k v } }
  | .HeaderAdd k v => { s with w := { s.w with header := s.w.header.Add k v } }
  | .HeaderDel k => { s with w := { s.w with header := s.w.header.Del k } }
  | .WriteHeader code => writeHeaderHook m s code
  | .Write p => { s with w := s.w.Write p }
  | .Flush => { s with w := s.w.Flush }
  | .ReadFrom p => { s with w := s.w.ReadFrom p }

/-- The downstream handler's calls applied in order to the wrapped writer. -/
def runHandler (m : Metrics) (s : ServeState) (ops : List WriterOp) : ServeState :=
  ops.foldl (wrappedCall m) s

/-- What a call of `ServeHTTP` leaves behind: the module (with its histogram
vector), the underlying writer, the value of the variable `err`, and whether the
call panicked (in `WithLabelValues`) instead of returning `err`. -/
structure ServeResult where
  m : Metrics
  w : ResponseWriter
  err : Option GoError
  panicked : Bool

/-- The method `Metrics.ServeHTTP`; `elapsed` is the duration measured by
`httpsnoop.CaptureMetrics` around the downstream call. -/
def ServeHTTP (m : Metrics) (w : ResponseWriter) (r : Request) (next : Handler)
    (elapsed : Nat) : ServeResult :=
  let run := next r
  let s := runHandler m { w := w, route := "" } run.ops
  if s.route = "" then
    { m := m, w := s.w, err := run.err, panicked := false }
  else
    { m := { m with durs := m.durs.Observe r.Method s.route elapsed }, w := s.w, err := run.err,
      panicked := !validateLabelValues [r.Method, s.route] }

/-- The method `Metrics.Validate`: the updated module and the returned error. -/
def Validate (m : Metrics) : Metrics × Option GoError :=
  if m.Header = "" then ({ m with Header := "X-Route-Pattern" }, none) else (m, none)

/-- A response writer on which nothing has been set or written. -/
def freshWriter : ResponseWriter :=
  { header := [], wroteHeader := false, sent := [], written := [] }

/-- The status 200. -/
def statusOK : StatusCode := ⟨200, by decide⟩

/-! ## Shapes of handler runs -/

/-- The call is `WriteHeader`. -/
def isWriteHeader : WriterOp → Bool
  | .WriteHeader _ => true
  | _ => false

/-- The call is a header mutation (`Set`, `Add` or `Del` on `w.Header()`). -/
def isHeaderOp : WriterOp → Bool
  | .HeaderSet _ _ => true
  | .HeaderAdd _ _ => true
  | .HeaderDel _ => true
  | _ => false

/-- The call mutates the entry of the header `H` (same canonical key). -/
def touchesHeader (H : String) : WriterOp → Bool
  | .HeaderSet k _ => decide (CanonicalMIMEHeaderKey k = CanonicalMIMEHeaderKey H)
  | .HeaderAdd k _ => decide (CanonicalMIMEHeaderKey k = CanonicalMIMEHeaderKey H)
  | .HeaderDel k => decide (CanonicalMIMEHeaderKey k = CanonicalMIMEHeaderKey H)
  | _ => false

/-- The call gives the header `H` a value (`Set` or `Add` on its canonical key). -/
def setsHeader (H : String) : WriterOp → Bool
  | .HeaderSet k _ => decide (CanonicalMIMEHeaderKey k = CanonicalMIMEHeaderKey H)
  | .HeaderAdd k _ => decide (CanonicalMIMEHeaderKey k = CanonicalMIMEHeaderKey H)
  | _ => false

/-- The run sets the header `H` to `R`, leaves it alone until it calls
`WriteHeader`, and calls `WriteHeader` exactly once. -/
def SetsThenWritesHeaderOnce (H : String) (R : GoString) (ops : List WriterOp) : Prop :=
  ∃ pre k mid code post,
    ops = pre ++ WriterOp.HeaderSet k R :: mid ++ WriterOp.WriteHeader code :: post ∧
    CanonicalMIMEHeaderKey k = CanonicalMIMEHeaderKey H ∧
    (∀ op ∈ pre, isWriteHeader op = false) ∧
    (∀ op ∈ mid, isWriteHeader op = false ∧ touchesHeader H op = false) ∧
    (∀ op ∈ post, isWriteHeader op = false)

/-- Every header block of the run leaves through a `WriteHeader` call: no body
`Write` (nor `Flush`, nor `ReadFrom`) happens before the final (non-1xx)
`WriteHeader`. -/
def commitsByWriteHeader : List WriterOp → Bool
  | [] => true
  | .Write _ :: _ => false
  | .Flush :: _ => false
  | .ReadFrom _ :: _ => false
  | .WriteHeader code :: rest => if code.informational then commitsByWriteHeader rest else true
  | _ :: rest => commitsByWriteHeader rest

/-- The series of the label pair, when it exists. -/
def HistogramVec.series (hv : HistogramVec) (method route : GoString) : Option Histogram :=
  match hv with
  | [] => none
  | (k, h) :: rest => if k = (method, route) then some h else HistogramVec.series rest method route

/-! ## The handlers of `metrics_test.go` -/

/-- The module built by `newMiddlewareWithRegistry("X-Route-Pattern")`. -/
def testMetrics : Metrics := { Header := "X-Route-Pattern", durs := [] }

/-- The request `GET http://example.test/users/42` of the tests. -/
def testRequest : Request := { Method := "GET", URL := "http://example.test/users/42" }

/-- The handler of `TestServeHTTP_RecordsAndStripsHeader`: sets the header, writes
the status 200 and the body "ok", returns nil. -/
def recordsAndStripsHandler : Handler := fun _ =>
  { ops := [.HeaderSet "X-Route-Pattern" "/users/\x7bid\x7d", .WriteHeader statusOK,
            .Write [111, 107]],
    err := none }

/-- The handler of `TestServeHTTP_SkipsWhenHeaderMissing`: writes the status 404
and the body "nope" without setting the header. -/
def skipsWhenHeaderMissingHandler : Handler := fun _ =>
  { ops := [.WriteHeader ⟨404, by decide⟩, .Write [110, 111, 112, 101]], err := none }

/-- The error `wantErr` of `TestServeHTTP_ErrorPropagates_NoMetric`. -/
def wantErr : GoError := { text := "HTTP 418" }

/-- The handler of `TestServeHTTP_ErrorPropagates_NoMetric`: sets the header and
returns `wantErr` without writing anything. -/
def errorPropagatesHandler : Handler := fun _ =>
  { ops := [.HeaderSet "X-Route-Pattern" "/users/\x7bid\x7d"], err := some wantErr }

/-! ## Further runs used as concrete inputs -/

/-- A handler that sets the header and writes a body without calling
`WriteHeader`. -/
def writeWithoutWriteHeaderHandler : Handler := fun _ =>
  { ops := [.HeaderSet "X-Route-Pattern" "/a", .Write [111, 107]], err := none }

/-- A handler that sets the header to the empty value and calls `WriteHeader`. -/
def emptyValueHandler : Handler := fun _ =>
  { ops := [.HeaderSet "X-Route-Pattern" "", .WriteHeader statusOK], err := none }

/-- A handler that sets the header and calls `WriteHeader`, then sets the header
to another value and calls `WriteHeader` again. -/
def secondWriteHeaderHandler : Handler := fun _ =>
  { ops := [.HeaderSet "X-Route-Pattern" "/a", .WriteHeader statusOK,
            .HeaderSet "X-Route-Pattern" "/b", .WriteHeader statusOK],
    err := none }

/-- A handler that only writes the status 200 and a body. -/
def plainHandler : Handler := fun _ =>
  { ops := [.WriteHeader statusOK, .Write [111, 107]], err := none }

/-- A response writer on which a handler earlier in the chain has already set
the header `X-Route-Pattern`. -/
def presetWriter : ResponseWriter :=
  { header := [("X-Route-Pattern", ["/up"])], wroteHeader := false, sent := [], written := [] }

/-- The one-byte Go string "\xff", which is not valid UTF-8. -/
def invalidLabel : GoString := { bytes := [255] }

/-- A handler that sets the header to `invalidLabel` and writes the status 200. -/
def invalidLabelHandler : Handler := fun _ =>
  { ops := [.HeaderSet "X-Route-Pattern" invalidLabel, .WriteHeader statusOK], err := none }

/-- A handler that sets the header to `invalidLabel`, writes the status 500 and
returns an error. -/
def invalidLabelErrorHandler : Handler := fun _ =>
  { ops := [.HeaderSet "X-Route-Pattern" invalidLabel, .WriteHeader ⟨500, by decide⟩],
    err := some wantErr }

/-- A handler that sets the header, deletes it again and writes the status 200. -/
def setThenDelHandler : Handler := fun _ =>
  { ops := [.HeaderSet "X-Route-Pattern" "/a", .HeaderDel "X-Route-Pattern",
            .WriteHeader statusOK],
    err := none }

/-- A handler that sets the header, writes a body and only then calls
`WriteHeader`. -/
def writeBeforeWriteHeaderHandler : Handler := fun _ =>
  { ops := [.HeaderSet "X-Route-Pattern" "/a", .Write [111, 107], .WriteHeader statusOK],
    err := none }

/-- A handler that sets the header, flushes and only then calls `WriteHeader`. -/
def flushBeforeWriteHeaderHandler : Handler := fun _ =>
  { ops := [.HeaderSet "X-Route-Pattern" "/a", .Flush, .WriteHeader statusOK], err := none }

/-- A handler that sets the header, sends the status 103, sets the header again
and writes a body without a final `WriteHeader`. -/
def earlyHintsHandler : Handler := fun _ =>
  { ops := [.HeaderSet "X-Route-Pattern" "/a", .WriteHeader ⟨103, by decide⟩,
            .HeaderSet "X-Route-Pattern" "/b", .Write [111, 107]],
    err := none }

/-- A handler that sets the header, writes the status 500 and returns an error. -/
def failsAfterWriteHeaderHandler : Handler := fun _ =>
  { ops := [.HeaderSet "X-Route-Pattern" "/users/\x7bid\x7d", .WriteHeader ⟨500, by decide⟩],
    err := some wantErr }

/-! ## caddyfile: tokens and the dispenser -/

/-- A token of the Caddyfile lexer: file, import chain, line and text. -/
structure Token where
  File : String
  imports : List String
  Line : Nat
  Text : String

/-- Number of line breaks inside the token text (`Token.NumLineBreaks`); the
marker lines the library adds for a heredoc token are not represented. -/
def Token.NumLineBreaks (t : Token) : Nat :=
  t.Text.data.count (Char.ofNat 10)

/-- The second token starts on a later line than the first ends, or comes from
another file or import chain (`isNextOnNewLine`); import chains are told apart
by their lengths only. -/
def isNextOnNewLine (t1 t2 : Token) : Bool :=
  if t1.File ≠ t2.File then true
  else if t1.imports.length ≠ t2.imports.length then true
  else decide (t1.Line + t1.NumLineBreaks < t2.Line)

/-- The `caddyfile.Dispenser`: the tokens, the cursor and the nesting level. -/
structure Dispenser where
  tokens : List Token
  cursor : Int
  nesting : Int

/-- The constructor `NewDispenser`: the cursor starts before the first token. -/
def NewDispenser (tokens : List Token) : Dispenser :=
  { tokens := tokens, cursor := -1, nesting := 0 }

namespace Dispenser

/-- The token at an index of the token list. -/
def tokenAt (d : Dispenser) (i : Int) : Option Token :=
  if i < 0 then none else d.tokens.get? i.toNat

/-- The text of the current token, empty when the cursor is outside the tokens
(`Dispenser.Val`). -/
def Val (d : Dispenser) : String :=
  match d.tokenAt d.cursor with
  | some t => t.Text
  | none => ""

/-- Loads the next token if there is one (`Dispenser.Next`). -/
def Next (d : Dispenser) : Bool × Dispenser :=
  if d.cursor < (d.tokens.length : Int) - 1 then (true, { d with cursor := d.cursor + 1 })
  else (false, d)

/-- Advances the cursor if the next token is on the same line
(`Dispenser.nextOnSameLine`). -/
def nextOnSameLine (d : Dispenser) : Bool × Dispenser :=
  if d.cursor < 0 then (true, { d with cursor := d.cursor + 1 })
  else if d.cursor ≥ (d.tokens.length : Int) - 1 then (false, d)
  else
    match d.tokenAt d.cursor, d.tokenAt (d.cursor + 1) with
    | some curr, some next =>
      if !isNextOnNewLine curr next then (true, { d with cursor := d.cursor + 1 }) else (false, d)
    | _, _ => (false, d)

/-- Loads the next token if it is on the same line and is not the opening brace
of a block (`Dispenser.NextArg`). -/
def NextArg (d : Dispenser) : Bool × Dispenser :=
  let (ok, d1) := d.nextOnSameLine
  if !ok then (false, d1)
  else if d1.Val = "\x7b" then (false, { d1 with cursor := d1.cursor - 1 })
  else (true, d1)

/-- Loads the next token as long as it opens a block or the dispenser is inside a
block nested deeper than the initial level (`Dispenser.NextBlock`). -/
def NextBlock (d : Dispenser) (initialNestingLevel : Int) : Bool × Dispenser :=
  if d.nesting > initialNestingLevel then
    let (ok, d1) := d.Next
    if !ok then (false, d1)
    else if d1.Val = "\x7d" then
      let (same, d2) := d1.nextOnSameLine
      if !same then (decide (d2.nesting - 1 > initialNestingLevel), { d2 with nesting := d2.nesting - 1 })
      else if d2.Val = "\x7b" then
        let (same2, d3) := d2.nextOnSameLine
        if !same2 then
          (decide (d3.nesting + 1 > initialNestingLevel), { d3 with nesting := d3.nesting + 1 })
        else (decide (d3.nesting > initialNestingLevel), d3)
      else (decide (d2.nesting > initialNestingLevel), d2)
    else if d1.Val = "\x7b" then
      let (same, d2) := d1.nextOnSameLine
      if !same then (decide (d2.nesting + 1 > initialNestingLevel), { d2 with nesting := d2.nesting + 1 })
      else (decide (d2.nesting > initialNestingLevel), d2)
    else (decide (d1.nesting > initialNestingLevel), d1)
  else
    let (same, d1) := d.nextOnSameLine
    if !same then (false, d1)
    else if d1.Val ≠ "\x7b" then (false, { d1 with cursor := d1.cursor - 1 })
    else
      let d2 := d1.Next.2
      if d2.Val = "\x7d" then (false, d2)
      else (true, { d2 with nesting := d2.nesting + 1 })

end Dispenser

/-- An error of `UnmarshalCaddyfile`: `d.ArgErr()` or
`d.Errf("unrecognized subdirective: %s", ...)`. -/
inductive CaddyfileError where
  | ArgErr
  | UnrecognizedSubdirective (name : String)
deriving DecidableEq

/-- What `UnmarshalCaddyfile` leaves behind: the module, the dispenser and the
returned error (`none` is nil). -/
structure UnmarshalResult where
  m : Metrics
  d : Dispenser
  err : Option CaddyfileError

/-- The inner loop `for d.NextBlock(0) { switch d.Val() ... }`; `none` when the
fuel runs out. An error result is the `return` inside the loop. -/
def blockLoop : Nat → Metrics → Dispenser → Option UnmarshalResult
  | 0, _, _ => none
  | fuel + 1, m, d =>
    let (more, d1) := d.NextBlock 0
    if !more then some { m := m, d := d1, err := none }
    else if d1.Val = "header" then
      -- `d.Args(&hdr)` with one target is one call of `NextArg`
      let (ok, d2) := d1.NextArg
      if !ok then some { m := m, d := d2, err := some .ArgErr }
      else blockLoop fuel { m with Header := d2.Val } d2
    else some { m := m, d := d1, err := some (.UnrecognizedSubdirective d1.Val) }

/-- The outer loop `for d.Next() { ... }`; `none` when the fuel runs out. -/
def directiveLoop : Nat → Metrics → Dispenser → Option UnmarshalResult
  | 0, _, _ => none
  | fuel + 1, m, d =>
    let (more, d1) := d.Next
    if !more then some { m := m, d := d1, err := none }
    else
      let (hasArg, d2) := d1.NextArg
      let m1 : Metrics := if hasArg then { m with Header := d2.Val } else m
      let (extra, d3) := if hasArg then d2.NextArg else (false, d2)
      if extra then some { m := m1, d := d3, err := some .ArgErr }
      else
        match blockLoop (d3.tokens.length + 1) m1 d3 with
        | none => none
        | some res =>
          match res.err with
          | some e => some { m := res.m, d := res.d, err := some e }
          | none => directiveLoop fuel res.m res.d

/-- The method `Metrics.UnmarshalCaddyfile`; each loop iteration consumes a
token, so the number of tokens plus one bounds the iterations. -/
def UnmarshalCaddyfile (m : Metrics) (d : Dispenser) : Option UnmarshalResult :=
  directiveLoop (d.tokens.length + 1) m d

/-- The tokens of the positional form `route_metrics H`, on one line. -/
def positionalForm (file : String) (line : Nat) (H : String) : List Token :=
  [{ File := file, imports := [], Line := line, Text := "route_metrics" },
   { File := file, imports := [], Line := line, Text := H }]

/-- The tokens of the block form: `route_metrics` and the opening brace on one
line, `header H` on one line, then the closing brace. -/
def blockForm (file : String) (line hline cline : Nat) (H : String) : List Token :=
  [{ File := file, imports := [], Line := line, Text := "route_metrics" },
   { File := file, imports := [], Line := line, Text := "\x7b" },
   { File := file, imports := [], Line := hline, Text := "header" },
   { File := file, imports := [], Line := hline, Text := H },
   { File := file, imports := [], Line := cline, Text := "\x7d" }]

/-! ## Lemmas on the header map -/

theorem Header.delete_cons (e : String × List GoString) (rest : Header) (key : String) :
    Header.delete (e :: rest) key
      = if e.1 = key then Header.delete rest key else e :: Header.delete rest key := by
  by_cases hk : e.1 = key <;> simp [Header.delete, List.filter_cons, hk]

theorem Header.lookup_cons (k : String) (vs : List GoString) (rest : Header) (key : String) :
    Header.lookup ((k, vs) :: rest) key = if k = key then some vs else Header.lookup rest key :=
  rfl

theorem Header.lookup_delete_self (h : Header) (key : String) :
    Header.lookup (Header.delete h key) key = none := by
  induction h with
  | nil => rfl
  | cons e rest ih =>
    obtain ⟨k, vs⟩ := e
    rw [Header.delete_cons]
    by_cases hk : k = key
    · simpa [hk] using ih
    · simpa [hk, Header.lookup_cons] using ih

theorem Header.lookup_delete_ne (h : Header) (key key2 : String) (hne : key2 ≠ key) :
    Header.lookup (Header.delete h key) key2 = Header.lookup h key2 := by
  induction h with
  | nil => rfl
  | cons e rest ih =>
    obtain ⟨k, vs⟩ := e
    rw [Header.delete_cons]
    by_cases hk : k = key
    · have hk2 : ¬ k = key2 := fun h2 => hne (h2.symm.trans hk)
      simpa [hk, Header.lookup_cons, hk2, hk ▸ hk2] using ih
    · simp only [hk, if_false, Header.lookup_cons, ih]

theorem Header.Get_Set_same (h : Header) (k H : String) (v : GoString)
    (hk : CanonicalMIMEHeaderKey k = CanonicalMIMEHeaderKey H) :
    Header.Get (Header.Set h k v) H = v := by
  simp [Header.Get, Header.Set, Header.lookup, hk]

theorem Header.Has_Del_same (h : Header) (H : String) :
    Header.Has (Header.Del h H) H = false := by
  simp [Header.Has, Header.Del, Header.lookup_delete_self]

theorem Header.Get_Del_same (h : Header) (H : String) :
    Header.Get (Header.Del h H) H = "" := by
  simp [Header.Get, Header.Del, Header.lookup_delete_self]

/-- A header mutation on another canonical key leaves the values of `H`. -/
theorem Header.lookup_Set_ne (h : Header) (k H : String) (v : GoString)
    (hk : CanonicalMIMEHeaderKey k ≠ CanonicalMIMEHeaderKey H) :
    Header.lookup (Header.Set h k v) (CanonicalMIMEHeaderKey H)
      = Header.lookup h (CanonicalMIMEHeaderKey H) := by
  simp only [Header.Set, Header.lookup, hk, if_false]
  exact Header.lookup_delete_ne h _ _ (fun e => hk e.symm)

theorem Header.lookup_Add_ne (h : Header) (k H : String) (v : GoString)
    (hk : CanonicalMIMEHeaderKey k ≠ CanonicalMIMEHeaderKey H) :
    Header.lookup (Header.Add h k v) (CanonicalMIMEHeaderKey H)
      = Header.lookup h (CanonicalMIMEHeaderKey H) := by
  unfold Header.Add
  split
  · simp only [Header.lookup, hk, if_false]
    exact Header.lookup_delete_ne h _ _ (fun e => hk e.symm)
  · simp only [Header.lookup, hk, if_false]

theorem Header.lookup_Del_ne (h : Header) (k H : String)
    (hk : CanonicalMIMEHeaderKey k ≠ CanonicalMIMEHeaderKey H) :
    Header.lookup (Header.Del h k) (CanonicalMIMEHeaderKey H)
      = Header.lookup h (CanonicalMIMEHeaderKey H) :=
  Header.lookup_delete_ne h _ _ (fun e => hk e.symm)

theorem Header.Get_congr (h1 h2 : Header) (H : String)
    (hl : Header.lookup h1 (CanonicalMIMEHeaderKey H) = Header.lookup h2 (CanonicalMIMEHeaderKey H)) :
    Header.Get h1 H = Header.Get h2 H := by
  unfold Header.Get
  rw [hl]

/-! ## Lemmas on the response writer and the wrapped calls -/

theorem ResponseWriter.WriteHeader_header (w : ResponseWriter) (code : StatusCode) :
    (w.WriteHeader code).header = w.header := by
  unfold ResponseWriter.WriteHeader
  split
  · rfl
  · split <;> rfl

theorem ResponseWriter.Write_header (w : ResponseWriter) (p : List Nat) :
    (w.Write p).header = w.header := by
  unfold ResponseWriter.Write
  by_cases hw : w.wroteHeader = true
  · simp [hw]
  · simp [hw, ResponseWriter.WriteHeader_header]

theorem ResponseWriter.Flush_header (w : ResponseWriter) : w.Flush.header = w.header := by
  unfold ResponseWriter.Flush
  by_cases hw : w.wroteHeader = true
  · simp [hw]
  · simp [hw, ResponseWriter.WriteHeader_header]

theorem ResponseWriter.ReadFrom_header (w : ResponseWriter) (p : List Nat) :
    (w.ReadFrom p).header = w.header := by
  unfold ResponseWriter.ReadFrom
  by_cases hw : w.wroteHeader = true
  · simp [hw]
  · simp [hw, ResponseWriter.WriteHeader_header]

theorem runHandler_nil (m : Metrics) (s : ServeState) : runHandler m s [] = s := rfl

theorem runHandler_cons (m : Metrics) (s : ServeState) (op : WriterOp) (ops : List WriterOp) :
    runHandler m s (op :: ops) = runHandler m (wrappedCall m s op) ops := rfl

theorem runHandler_append (m : Metrics) (s : ServeState) (a b : List WriterOp) :
    runHandler m s (a ++ b) = runHandler m (runHandler m s a) b := by
  simp [runHandler, List.foldl_append]

/-- The label after the hook: the header value when it is non-empty, the
previous label otherwise. -/
theorem writeHeaderHook_route (m : Metrics) (s : ServeState) (code : StatusCode) :
    (writeHeaderHook m s code).route
      = if s.w.header.Get m.Header ≠ "" then s.w.header.Get m.Header else s.route := by
  unfold writeHeaderHook
  by_cases hv : s.w.header.Get m.Header = "" <;> simp [hv]

/-- The header map after the hook: the entry is deleted when its value is
non-empty, the map is left as it is otherwise. -/
theorem writeHeaderHook_header (m : Metrics) (s : ServeState) (code : StatusCode) :
    (writeHeaderHook m s code).w.header
      = if s.w.header.Get m.Header ≠ "" then s.w.header.Del m.Header else s.w.header := by
  unfold writeHeaderHook
  by_cases hv : s.w.header.Get m.Header = "" <;> simp [hv, ResponseWriter.WriteHeader_header]

/-- A call other than `WriteHeader` leaves the captured label. -/
theorem wrappedCall_route (m : Metrics) (s : ServeState) (op : WriterOp)
    (hop : isWriteHeader op = false) : (wrappedCall m s op).route = s.route := by
  cases op <;> first | rfl | simp [isWriteHeader] at hop

/-- Without a `WriteHeader` call the captured label is left as it was. -/
theorem runHandler_route_of_no_WriteHeader (m : Metrics) (ops : List WriterOp) :
    ∀ s : ServeState, (∀ op ∈ ops, isWriteHeader op = false) →
      (runHandler m s ops).route = s.route := by
  induction ops with
  | nil => intro s _; rfl
  | cons op rest ih =>
    intro s h
    rw [runHandler_cons, ih _ (fun o ho => h o (List.mem_cons_of_mem _ ho)),
      wrappedCall_route m s op (h op (List.mem_cons_self _ _))]

/-- A call that is neither `WriteHeader` nor a mutation of `m.Header` leaves the
values stored under `m.Header`. -/
theorem wrappedCall_lookup (m : Metrics) (s : ServeState) (op : WriterOp)
    (hop : isWriteHeader op = false ∧ touchesHeader m.Header op = false) :
    Header.lookup (wrappedCall m s op).w.header (CanonicalMIMEHeaderKey m.Header)
      = Header.lookup s.w.header (CanonicalMIMEHeaderKey m.Header) := by
  obtain ⟨h1, h2⟩ := hop
  cases op with
  | HeaderSet k v =>
    simp only [touchesHeader, decide_eq_false_iff_not] at h2
    exact Header.lookup_Set_ne _ _ _ _ h2
  | HeaderAdd k v =>
    simp only [touchesHeader, decide_eq_false_iff_not] at h2
    exact Header.lookup_Add_ne _ _ _ _ h2
  | HeaderDel k =>
    simp only [touchesHeader, decide_eq_false_iff_not] at h2
    exact Header.lookup_Del_ne _ _ _ h2
  | WriteHeader code => simp [isWriteHeader] at h1
  | Write p => simp [wrappedCall, ResponseWriter.Write_header]
  | Flush => simp [wrappedCall, ResponseWriter.Flush_header]
  | ReadFrom p => simp [wrappedCall, ResponseWriter.ReadFrom_header]

theorem runHandler_lookup (m : Metrics) (ops : List WriterOp) :
    ∀ s : ServeState,
      (∀ op ∈ ops, isWriteHeader op = false ∧ touchesHeader m.Header op = false) →
      Header.lookup (runHandler m s ops).w.header (CanonicalMIMEHeaderKey m.Header)
        = Header.lookup s.w.header (CanonicalMIMEHeaderKey m.Header) := by
  induction ops with
  | nil => intro s _; rfl
  | cons op rest ih =>
    intro s h
    rw [runHandler_cons, ih _ (fun o ho => h o (List.mem_cons_of_mem _ ho)),
      wrappedCall_lookup m s op (h op (List.mem_cons_self _ _))]

/-- A captured label is never reset to the empty string. -/
theorem wrappedCall_route_ne (m : Metrics) (s : ServeState) (op : WriterOp)
    (hs : s.route ≠ "") : (wrappedCall m s op).route ≠ "" := by
  cases op with
  | WriteHeader code =>
    show (writeHeaderHook m s code).route ≠ ""
    rw [writeHeaderHook_route]
    split
    · assumption
    · exact hs
  | HeaderSet k v => exact hs
  | HeaderAdd k v => exact hs
  | HeaderDel k => exact hs
  | Write p => exact hs
  | Flush => exact hs
  | ReadFrom p => exact hs

theorem runHandler_route_ne (m : Metrics) (ops : List WriterOp) :
    ∀ s : ServeState, s.route ≠ "" → (runHandler m s ops).route ≠ "" := by
  induction ops with
  | nil => intro s hs; exact hs
  | cons op rest ih =>
    intro s hs
    rw [runHandler_cons]
    exact ih _ (wrappedCall_route_ne m s op hs)

/-- The label captured by a run that sets the header to `R`, leaves it alone and
then calls `WriteHeader` for the last time. -/
theorem runHandler_route_of_set (m : Metrics) (s : ServeState) (pre mid post : List WriterOp)
    (k : String) (R : GoString) (code : StatusCode) (hR : R ≠ "")
    (hk : CanonicalMIMEHeaderKey k = CanonicalMIMEHeaderKey m.Header)
    (hmid : ∀ op ∈ mid, isWriteHeader op = false ∧ touchesHeader m.Header op = false)
    (hpost : ∀ op ∈ post, isWriteHeader op = false) :
    (runHandler m s (pre ++ WriterOp.HeaderSet k R :: mid ++ WriterOp.WriteHeader code :: post)).route
      = R := by
  have hget : Header.Get (runHandler m (wrappedCall m (runHandler m s pre) (.HeaderSet k R)) mid).w.header
      m.Header = R := by
    rw [Header.Get_congr _ _ _ (runHandler_lookup m mid _ hmid)]
    exact Header.Get_Set_same _ _ _ _ hk
  rw [show pre ++ WriterOp.HeaderSet k R :: mid ++ WriterOp.WriteHeader code :: post
      = pre ++ (WriterOp.HeaderSet k R :: (mid ++ WriterOp.WriteHeader code :: post)) by simp]
  rw [runHandler_append, runHandler_cons, runHandler_append, runHandler_cons,
    runHandler_route_of_no_WriteHeader m post _ hpost]
  show (writeHeaderHook m _ code).route = R
  rw [writeHeaderHook_route, hget]
  simp [hR]

/-! ## Lemmas on the histogram vector -/

theorem Observe_of_valid (hv : HistogramVec) (method route : GoString) (d : Nat)
    (hvalid : validateLabelValues [method, route] = true) :
    hv.Observe method route d = hv.addSample method route d := by
  simp [HistogramVec.Observe, hvalid]

theorem Observe_of_invalid (hv : HistogramVec) (method route : GoString) (d : Nat)
    (hinvalid : validateLabelValues [method, route] = false) :
    hv.Observe method route d = hv := by
  simp [HistogramVec.Observe, hinvalid]

theorem validateLabelValues_pair (method route : GoString) (hm : ValidString method = true)
    (hr : ValidString route = true) : validateLabelValues [method, route] = true := by
  simp [validateLabelValues, hm, hr]

theorem durationCount_addSample_same (hv : HistogramVec) (method route : GoString) (d : Nat) :
    durationCount (hv.addSample method route d) method route
      = durationCount hv method route + 1 := by
  induction hv with
  | nil => simp [HistogramVec.addSample, durationCount]
  | cons e rest ih =>
    obtain ⟨k, h⟩ := e
    by_cases hk : k = (method, route)
    · simp [HistogramVec.addSample, durationCount, hk]
    · simp [HistogramVec.addSample, durationCount, hk, ih]

theorem durationCount_addSample_other (hv : HistogramVec)
    (method route method2 route2 : GoString) (d : Nat)
    (hne : (method2, route2) ≠ (method, route)) :
    durationCount (hv.addSample method route d) method2 route2
      = durationCount hv method2 route2 := by
  induction hv with
  | nil =>
    have : ¬ (method, route) = (method2, route2) := fun h => hne h.symm
    simp [HistogramVec.addSample, durationCount, this]
  | cons e rest ih =>
    obtain ⟨k, h⟩ := e
    by_cases hk : k = (method, route)
    · have : ¬ k = (method2, route2) := fun h2 => hne (h2.symm.trans hk)
      simp [HistogramVec.addSample, durationCount, hk, this, hk ▸ this]
    · by_cases hk2 : k = (method2, route2)
      · rw [HistogramVec.addSample, if_neg hk, durationCount, if_pos hk2, durationCount,
          if_pos hk2]
      · rw [HistogramVec.addSample, if_neg hk, durationCount, if_neg hk2, durationCount,
          if_neg hk2, ih]

theorem totalCount_addSample (hv : HistogramVec) (method route : GoString) (d : Nat) :
    totalCount (hv.addSample method route d) = totalCount hv + 1 := by
  induction hv with
  | nil => simp [HistogramVec.addSample, totalCount]
  | cons e rest ih =>
    obtain ⟨k, h⟩ := e
    by_cases hk : k = (method, route)
    · simp [HistogramVec.addSample, totalCount, hk]; omega
    · simp only [HistogramVec.addSample, hk, if_false, totalCount, List.map_cons,
        List.sum_cons] at ih ⊢
      omega

theorem series_addSample_other (hv : HistogramVec) (method route method2 route2 : GoString)
    (d : Nat) (hne : (method2, route2) ≠ (method, route)) :
    (hv.addSample method route d).series method2 route2 = hv.series method2 route2 := by
  induction hv with
  | nil =>
    have : ¬ (method, route) = (method2, route2) := fun h => hne h.symm
    simp [HistogramVec.addSample, HistogramVec.series, this]
  | cons e rest ih =>
    obtain ⟨k, h⟩ := e
    by_cases hk : k = (method, route)
    · have h2 : ¬ k = (method2, route2) := fun h2 => hne (h2.symm.trans hk)
      rw [HistogramVec.addSample, if_pos hk, HistogramVec.series, if_neg h2,
        HistogramVec.series, if_neg h2]
    · by_cases hk2 : k = (method2, route2)
      · rw [HistogramVec.addSample, if_neg hk, HistogramVec.series, if_pos hk2,
          HistogramVec.series, if_pos hk2]
      · rw [HistogramVec.addSample, if_neg hk, HistogramVec.series, if_neg hk2,
          HistogramVec.series, if_neg hk2, ih]

/-- The histogram vector after `ServeHTTP`, from the label captured by the run. -/
theorem ServeHTTP_durs (m : Metrics) (w : ResponseWriter) (r : Request) (next : Handler)
    (elapsed : Nat) :
    (ServeHTTP m w r next elapsed).m.durs
      = if (runHandler m { w := w, route := "" } (next r).ops).route = "" then m.durs
        else m.durs.Observe r.Method
          (runHandler m { w := w, route := "" } (next r).ops).route elapsed := by
  unfold ServeHTTP
  simp only []
  split <;> simp_all

/-- The label captured by a run of the shape `SetsThenWritesHeaderOnce`. -/
theorem runHandler_route_of_shape (m : Metrics) (s : ServeState) (R : GoString)
    (ops : List WriterOp) (hR : R ≠ "") (hrun : SetsThenWritesHeaderOnce m.Header R ops) :
    (runHandler m s ops).route = R := by
  obtain ⟨pre, k, mid, code, post, hops, hk, _, hmid, hpost⟩ := hrun
  rw [hops]
  exact runHandler_route_of_set m s pre mid post k R code hR hk hmid hpost

/-- The histogram vector after a request whose run has the shape
`SetsThenWritesHeaderOnce`. -/
theorem ServeHTTP_durs_of_shape (m : Metrics) (w : ResponseWriter) (r : Request)
    (next : Handler) (elapsed : Nat) (R : GoString) (hR : R ≠ "")
    (hrun : SetsThenWritesHeaderOnce m.Header R (next r).ops) :
    (ServeHTTP m w r next elapsed).m.durs = m.durs.Observe r.Method R elapsed := by
  rw [ServeHTTP_durs, runHandler_route_of_shape m _ R _ hR hrun, if_neg hR]

/-- `ServeHTTP` never changes the configured header name. -/
theorem ServeHTTP_Header (m : Metrics) (w : ResponseWriter) (r : Request) (next : Handler)
    (elapsed : Nat) : (ServeHTTP m w r next elapsed).m.Header = m.Header := by
  unfold ServeHTTP
  simp only []
  split <;> rfl

theorem Header.Get_Del_of_eq (h : Header) (k H : String)
    (hk : CanonicalMIMEHeaderKey k = CanonicalMIMEHeaderKey H) :
    Header.Get (Header.Del h k) H = "" := by
  simp [Header.Get, Header.Del, hk, Header.lookup_delete_self]

/-- The underlying writer after `ServeHTTP` is the one the run leaves. -/
theorem ServeHTTP_w (m : Metrics) (w : ResponseWriter) (r : Request) (next : Handler)
    (elapsed : Nat) :
    (ServeHTTP m w r next elapsed).w = (runHandler m { w := w, route := "" } (next r).ops).w := by
  unfold ServeHTTP
  simp only []
  split <;> rfl

/-- A header mutation sends nothing. -/
theorem wrappedCall_headerOp (m : Metrics) (s : ServeState) (op : WriterOp)
    (hop : isHeaderOp op = true) :
    (wrappedCall m s op).w.wroteHeader = s.w.wroteHeader ∧ (wrappedCall m s op).w.sent = s.w.sent := by
  cases op <;> first | exact ⟨rfl, rfl⟩ | simp [isHeaderOp] at hop

theorem runHandler_headerOps (m : Metrics) (ops : List WriterOp) :
    ∀ s : ServeState, (∀ op ∈ ops, isHeaderOp op = true) →
      (runHandler m s ops).w.wroteHeader = s.w.wroteHeader ∧
      (runHandler m s ops).w.sent = s.w.sent := by
  induction ops with
  | nil => intro s _; exact ⟨rfl, rfl⟩
  | cons op rest ih =>
    intro s h
    have h1 := wrappedCall_headerOp m s op (h op (List.mem_cons_self _ _))
    have h2 := ih (wrappedCall m s op) (fun o ho => h o (List.mem_cons_of_mem _ ho))
    rw [runHandler_cons]
    exact ⟨h2.1.trans h1.1, h2.2.trans h1.2⟩

theorem ResponseWriter.WriteHeader_of_wrote (w : ResponseWriter) (code : StatusCode)
    (hw : w.wroteHeader = true) : w.WriteHeader code = w := by
  simp [ResponseWriter.WriteHeader, hw]

/-- Once the final header is written, no call sends another header block. -/
theorem wrappedCall_of_wrote (m : Metrics) (s : ServeState) (op : WriterOp)
    (hw : s.w.wroteHeader = true) :
    (wrappedCall m s op).w.wroteHeader = true ∧ (wrappedCall m s op).w.sent = s.w.sent := by
  cases op with
  | HeaderSet k v => exact ⟨hw, rfl⟩
  | HeaderAdd k v => exact ⟨hw, rfl⟩
  | HeaderDel k => exact ⟨hw, rfl⟩
  | WriteHeader code =>
    show (writeHeaderHook m s code).w.wroteHeader = true ∧ (writeHeaderHook m s code).w.sent = s.w.sent
    unfold writeHeaderHook
    by_cases hv : s.w.header.Get m.Header = "" <;>
      simp [hv, ResponseWriter.WriteHeader, hw]
  | Write p =>
    show (s.w.Write p).wroteHeader = true ∧ (s.w.Write p).sent = s.w.sent
    simp [ResponseWriter.Write, hw]
  | Flush =>
    show s.w.Flush.wroteHeader = true ∧ s.w.Flush.sent = s.w.sent
    simp [ResponseWriter.Flush, hw]
  | ReadFrom p =>
    show (s.w.ReadFrom p).wroteHeader = true ∧ (s.w.ReadFrom p).sent = s.w.sent
    simp [ResponseWriter.ReadFrom, hw]

theorem runHandler_of_wrote (m : Metrics) (ops : List WriterOp) :
    ∀ s : ServeState, s.w.wroteHeader = true →
      (runHandler m s ops).w.wroteHeader = true ∧ (runHandler m s ops).w.sent = s.w.sent := by
  induction ops with
  | nil => intro s hw; exact ⟨hw, rfl⟩
  | cons op rest ih =>
    intro s hw
    have h1 := wrappedCall_of_wrote m s op hw
    have h2 := ih (wrappedCall m s op) h1.1
    rw [runHandler_cons]
    exact ⟨h2.1, h2.2.trans h1.2⟩

/-- The header blocks sent by a run extend the blocks sent before it. -/
theorem wrappedCall_sent_extends (m : Metrics) (s : ServeState) (op : WriterOp) :
    ∃ more, (wrappedCall m s op).w.sent = s.w.sent ++ more := by
  cases op with
  | HeaderSet k v => exact ⟨[], by simp [wrappedCall]⟩
  | HeaderAdd k v => exact ⟨[], by simp [wrappedCall]⟩
  | HeaderDel k => exact ⟨[], by simp [wrappedCall]⟩
  | WriteHeader code =>
    show ∃ more, (writeHeaderHook m s code).w.sent = s.w.sent ++ more
    unfold writeHeaderHook ResponseWriter.WriteHeader
    by_cases hv : s.w.header.Get m.Header = "" <;> by_cases hw : s.w.wroteHeader = true <;>
      by_cases hi : code.informational = true <;> simp [hv, hw, hi]
  | Write p =>
    show ∃ more, (s.w.Write p).sent = s.w.sent ++ more
    unfold ResponseWriter.Write ResponseWriter.WriteHeader
    by_cases hw : s.w.wroteHeader = true <;> simp [hw, StatusCode.informational]
  | Flush =>
    show ∃ more, s.w.Flush.sent = s.w.sent ++ more
    unfold ResponseWriter.Flush ResponseWriter.WriteHeader
    by_cases hw : s.w.wroteHeader = true <;> simp [hw, StatusCode.informational]
  | ReadFrom p =>
    show ∃ more, (s.w.ReadFrom p).sent = s.w.sent ++ more
    unfold ResponseWriter.ReadFrom ResponseWriter.WriteHeader
    by_cases hw : s.w.wroteHeader = true <;> simp [hw, StatusCode.informational]

theorem runHandler_sent_extends (m : Metrics) (ops : List WriterOp) :
    ∀ s : ServeState, ∃ more, (runHandler m s ops).w.sent = s.w.sent ++ more := by
  induction ops with
  | nil => intro s; exact ⟨[], by simp [runHandler_nil]⟩
  | cons op rest ih =>
    intro s
    obtain ⟨m1, h1⟩ := wrappedCall_sent_extends m s op
    obtain ⟨m2, h2⟩ := ih (wrappedCall m s op)
    exact ⟨m1 ++ m2, by rw [runHandler_cons, h2, h1, List.append_assoc]⟩

/-- The header map after the hook holds no non-empty value for `m.Header`. -/
theorem writeHeaderHook_Get (m : Metrics) (s : ServeState) (code : StatusCode) :
    Header.Get (writeHeaderHook m s code).w.header m.Header = "" := by
  rw [writeHeaderHook_header]
  by_cases hv : s.w.header.Get m.Header = ""
  · simp [hv]
  · simp [hv, Header.Get_Del_same]

/-- The header blocks after the hook: the old ones, and at most one new block,
which is the header map the hook leaves. -/
theorem writeHeaderHook_sent (m : Metrics) (s : ServeState) (code : StatusCode) :
    (writeHeaderHook m s code).w.sent
      = if s.w.wroteHeader then s.w.sent
        else s.w.sent ++ [(code.code, (writeHeaderHook m s code).w.header)] := by
  unfold writeHeaderHook ResponseWriter.WriteHeader
  by_cases hv : s.w.header.Get m.Header = "" <;> by_cases hw : s.w.wroteHeader = true <;>
    by_cases hi : code.informational = true <;> simp [hv, hw, hi]

theorem writeHeaderHook_wrote (m : Metrics) (s : ServeState) (code : StatusCode)
    (hfinal : code.informational = false) : (writeHeaderHook m s code).w.wroteHeader = true := by
  unfold writeHeaderHook ResponseWriter.WriteHeader
  by_cases hv : s.w.header.Get m.Header = "" <;> by_cases hw : s.w.wroteHeader = true <;>
    simp [hv, hw, hfinal]

/-- A call that gives `m.Header` no value keeps an empty value empty and, being
made with an empty value, captures nothing. -/
theorem wrappedCall_keeps_empty (m : Metrics) (s : ServeState) (op : WriterOp)
    (hop : setsHeader m.Header op = false) (hget : Header.Get s.w.header m.Header = "") :
    Header.Get (wrappedCall m s op).w.header m.Header = "" ∧ (wrappedCall m s op).route = s.route := by
  cases op with
  | HeaderSet k v =>
    simp only [setsHeader, decide_eq_false_iff_not] at hop
    exact ⟨(Header.Get_congr _ _ _ (Header.lookup_Set_ne _ _ _ _ hop)).trans hget, rfl⟩
  | HeaderAdd k v =>
    simp only [setsHeader, decide_eq_false_iff_not] at hop
    exact ⟨(Header.Get_congr _ _ _ (Header.lookup_Add_ne _ _ _ _ hop)).trans hget, rfl⟩
  | HeaderDel k =>
    refine ⟨?_, rfl⟩
    by_cases hk : CanonicalMIMEHeaderKey k = CanonicalMIMEHeaderKey m.Header
    · exact Header.Get_Del_of_eq _ _ _ hk
    · exact (Header.Get_congr _ _ _ (Header.lookup_Del_ne _ _ _ hk)).trans hget
  | WriteHeader code =>
    refine ⟨writeHeaderHook_Get m s code, ?_⟩
    show (writeHeaderHook m s code).route = s.route
    rw [writeHeaderHook_route]
    simp [hget]
  | Write p =>
    refine ⟨?_, rfl⟩
    show Header.Get (s.w.Write p).header m.Header = ""
    rw [ResponseWriter.Write_header]
    exact hget
  | Flush =>
    refine ⟨?_, rfl⟩
    show Header.Get s.w.Flush.header m.Header = ""
    rw [ResponseWriter.Flush_header]
    exact hget
  | ReadFrom p =>
    refine ⟨?_, rfl⟩
    show Header.Get (s.w.ReadFrom p).header m.Header = ""
    rw [ResponseWriter.ReadFrom_header]
    exact hget

theorem runHandler_keeps_empty (m : Metrics) (ops : List WriterOp) :
    ∀ s : ServeState, (∀ op ∈ ops, setsHeader m.Header op = false) →
      Header.Get s.w.header m.Header = "" → (runHandler m s ops).route = s.route := by
  induction ops with
  | nil => intro s _ _; rfl
  | cons op rest ih =>
    intro s h hget
    have h1 := wrappedCall_keeps_empty m s op (h op (List.mem_cons_self _ _)) hget
    rw [runHandler_cons, ih _ (fun o ho => h o (List.mem_cons_of_mem _ ho)) h1.1, h1.2]

/-- Every header block sent by a run that commits by `WriteHeader` is an old block
or holds no non-empty value for `m.Header`. -/
theorem runHandler_sent_clean (m : Metrics) (ops : List WriterOp) :
    ∀ s : ServeState, commitsByWriteHeader ops = true →
      ∀ b ∈ (runHandler m s ops).w.sent, b ∈ s.w.sent ∨ Header.Get b.2 m.Header = "" := by
  induction ops with
  | nil => intro s _ b hb; exact Or.inl hb
  | cons op rest ih =>
    intro s hc b hb
    rw [runHandler_cons] at hb
    cases op with
    | HeaderSet k v =>
      exact ih (wrappedCall m s (.HeaderSet k v)) (by simpa [commitsByWriteHeader] using hc) b hb
    | HeaderAdd k v =>
      exact ih (wrappedCall m s (.HeaderAdd k v)) (by simpa [commitsByWriteHeader] using hc) b hb
    | HeaderDel k =>
      exact ih (wrappedCall m s (.HeaderDel k)) (by simpa [commitsByWriteHeader] using hc) b hb
    | Write p => simp [commitsByWriteHeader] at hc
    | Flush => simp [commitsByWriteHeader] at hc
    | ReadFrom p => simp [commitsByWriteHeader] at hc
    | WriteHeader code =>
      have hstep : ∀ b ∈ (wrappedCall m s (.WriteHeader code)).w.sent,
          b ∈ s.w.sent ∨ Header.Get b.2 m.Header = "" := by
        intro b hb
        change b ∈ (writeHeaderHook m s code).w.sent at hb
        rw [writeHeaderHook_sent] at hb
        by_cases hw : s.w.wroteHeader = true
        · simp only [hw, if_true] at hb
          exact Or.inl hb
        · simp only [hw, Bool.false_eq_true, if_false, List.mem_append, List.mem_singleton] at hb
          rcases hb with hb | hb
          · exact Or.inl hb
          · right
            rw [hb]
            exact writeHeaderHook_Get m s code
      by_cases hi : code.informational = true
      · have hc2 : commitsByWriteHeader rest = true := by
          simpa [commitsByWriteHeader, hi] using hc
        rcases ih _ hc2 b hb with h | h
        · exact hstep b h
        · exact Or.inr h
      · have hfin : code.informational = false := by simpa using hi
        have hwrote := writeHeaderHook_wrote m s code hfin
        have hsame := (runHandler_of_wrote m rest (wrappedCall m s (.WriteHeader code)) hwrote).2
        rw [hsame] at hb
        exact hstep b hb

/-- The error returned by `ServeHTTP` is the one the run returned. -/
theorem ServeHTTP_err (m : Metrics) (w : ResponseWriter) (r : Request)
    (next : Handler) (elapsed : Nat) :
    (ServeHTTP m w r next elapsed).err = (next r).err := by
  unfold ServeHTTP
  simp only []
  split <;> rfl

/-- The call panics exactly when a label was captured and a label value is not
valid UTF-8. -/
theorem ServeHTTP_panicked (m : Metrics) (w : ResponseWriter) (r : Request) (next : Handler)
    (elapsed : Nat) :
    (ServeHTTP m w r next elapsed).panicked
      = (if (runHandler m { w := w, route := "" } (next r).ops).route = "" then false
         else !validateLabelValues
           [r.Method, (runHandler m { w := w, route := "" } (next r).ops).route]) := by
  unfold ServeHTTP
  simp only []
  split <;> rfl

/-! ## The tests of the repository, replayed on the model -/

theorem test_Validate_SetsDefaultHeader :
    (Validate { Header := "", durs := [] }).2 = none ∧
    (Validate { Header := "", durs := [] }).1.Header = "X-Route-Pattern" := by
  decide

theorem test_UnmarshalCaddyfile_PositionalHeader :
    (UnmarshalCaddyfile { Header := "", durs := [] }
        (NewDispenser (positionalForm "Testfile" 1 "X-My-Route"))).map
      (fun res => (res.m.Header, res.err)) = some ("X-My-Route", none) := by
  decide

theorem test_UnmarshalCaddyfile_BlockHeader :
    (UnmarshalCaddyfile { Header := "", durs := [] }
        (NewDispenser (blockForm "Testfile" 2 3 4 "X-Block-Route"))).map
      (fun res => (res.m.Header, res.err)) = some ("X-Block-Route", none) := by
  decide

theorem test_ServeHTTP_RecordsAndStripsHeader :
    (ServeHTTP testMetrics freshWriter testRequest recordsAndStripsHandler 1000000).err = none ∧
    Header.Get
        (ServeHTTP testMetrics freshWriter testRequest recordsAndStripsHandler 1000000).w.header
        "X-Route-Pattern" = "" ∧
    1 ≤ durationCount
        (ServeHTTP testMetrics freshWriter testRequest recordsAndStripsHandler 1000000).m.durs
        "GET" "/users/\x7bid\x7d" := by
  decide

theorem test_ServeHTTP_SkipsWhenHeaderMissing :
    (ServeHTTP testMetrics freshWriter testRequest skipsWhenHeaderMissingHandler 1000).err = none ∧
    durationCount
        (ServeHTTP testMetrics freshWriter testRequest skipsWhenHeaderMissingHandler 1000).m.durs
        "GET" "/users/\x7bid\x7d" = 0 := by
  decide

theorem test_ServeHTTP_ErrorPropagates_NoMetric :
    (ServeHTTP testMetrics freshWriter testRequest errorPropagatesHandler 1000).err
      = some wantErr ∧
    durationCount
        (ServeHTTP testMetrics freshWriter testRequest errorPropagatesHandler 1000).m.durs
        "GET" "/users/\x7bid\x7d" = 0 := by
  decide

/-! ## The claims -/

/-- C1 as stated fails: a handler that sets the header to a non-empty value that
is not valid UTF-8 and calls `WriteHeader` once makes `ServeHTTP` panic in
`WithLabelValues`, with no observation recorded; and a handler that sets the
header, deletes it and then calls `WriteHeader` once records nothing. -/
theorem C1_counterexample :
    invalidLabel ≠ "" ∧
    ValidString invalidLabel = false ∧
    (runHandler testMetrics { w := freshWriter, route := "" }
        (invalidLabelHandler testRequest).ops).route = invalidLabel ∧
    (ServeHTTP testMetrics freshWriter testRequest invalidLabelHandler 7).panicked = true ∧
    totalCount (ServeHTTP testMetrics freshWriter testRequest invalidLabelHandler 7).m.durs = 0 ∧
    (ServeHTTP testMetrics freshWriter testRequest setThenDelHandler 7).panicked = false ∧
    totalCount (ServeHTTP testMetrics freshWriter testRequest setThenDelHandler 7).m.durs = 0 ∧
    durationCount (ServeHTTP testMetrics freshWriter testRequest setThenDelHandler 7).m.durs
      "GET" "/a" = 0 := by
  refine ⟨by decide, by decide, by decide, by decide, by decide, by decide, by decide,
    by decide⟩

/-- C1, amended: when the request method is valid UTF-8 and the downstream
handler sets the configured header to a non-empty, valid UTF-8 value `R`, leaves
that header untouched until it calls `WriteHeader`, and calls `WriteHeader` once,
`ServeHTTP` returns and records exactly one observation, on the series
`(r.Method, R)`: the vector is the old one with one more sample in that series,
the total number of samples and the sample count of that series grow by 1, every
other series is unchanged, and a second such request with the same method and
`R` brings the count of the series to the old count plus 2. -/
theorem C1_one_observation_on_method_route (m : Metrics) (w : ResponseWriter) (r : Request)
    (next : Handler) (elapsed : Nat) (R : GoString) (hR : R ≠ "")
    (hvalidR : ValidString R = true) (hvalidM : ValidString r.Method = true)
    (hrun : SetsThenWritesHeaderOnce m.Header R (next r).ops) :
    (ServeHTTP m w r next elapsed).panicked = false ∧
    (ServeHTTP m w r next elapsed).m.durs = m.durs.addSample r.Method R elapsed ∧
    totalCount (ServeHTTP m w r next elapsed).m.durs = totalCount m.durs + 1 ∧
    durationCount (ServeHTTP m w r next elapsed).m.durs r.Method R
      = durationCount m.durs r.Method R + 1 ∧
    (∀ method route : GoString, (method, route) ≠ (r.Method, R) →
      (ServeHTTP m w r next elapsed).m.durs.series method route = m.durs.series method route ∧
      durationCount (ServeHTTP m w r next elapsed).m.durs method route
        = durationCount m.durs method route) ∧
    (∀ (w2 : ResponseWriter) (r2 : Request) (next2 : Handler) (elapsed2 : Nat),
      r2.Method = r.Method → SetsThenWritesHeaderOnce m.Header R (next2 r2).ops →
      (ServeHTTP (ServeHTTP m w r next elapsed).m w2 r2 next2 elapsed2).panicked = false ∧
      durationCount
          (ServeHTTP (ServeHTTP m w r next elapsed).m w2 r2 next2 elapsed2).m.durs r.Method R
        = durationCount m.durs r.Method R + 2) := by
  have hvalid := validateLabelValues_pair r.Method R hvalidM hvalidR
  have hroute := runHandler_route_of_shape m { w := w, route := "" } R (next r).ops hR hrun
  have h1 : (ServeHTTP m w r next elapsed).m.durs = m.durs.addSample r.Method R elapsed := by
    rw [ServeHTTP_durs_of_shape m w r next elapsed R hR hrun, Observe_of_valid _ _ _ _ hvalid]
  have hp : (ServeHTTP m w r next elapsed).panicked = false := by
    rw [ServeHTTP_panicked, hroute, if_neg hR, hvalid]
    rfl
  refine ⟨hp, h1, ?_, ?_, ?_, ?_⟩
  · rw [h1, totalCount_addSample]
  · rw [h1, durationCount_addSample_same]
  · intro method route hne
    rw [h1]
    exact ⟨series_addSample_other _ _ _ _ _ _ hne, durationCount_addSample_other _ _ _ _ _ _ hne⟩
  · intro w2 r2 next2 elapsed2 hm hrun2
    have hH := ServeHTTP_Header m w r next elapsed
    have hrun3 : SetsThenWritesHeaderOnce (ServeHTTP m w r next elapsed).m.Header R
        (next2 r2).ops := by rw [hH]; exact hrun2
    have hroute2 := runHandler_route_of_shape (ServeHTTP m w r next elapsed).m
      { w := w2, route := "" } R (next2 r2).ops hR hrun3
    refine ⟨?_, ?_⟩
    · rw [ServeHTTP_panicked, hroute2, if_neg hR, hm, hvalid]
      rfl
    · rw [ServeHTTP_durs_of_shape _ w2 r2 next2 elapsed2 R hR hrun3, hm,
        Observe_of_valid _ _ _ _ hvalid, h1, durationCount_addSample_same,
        durationCount_addSample_same]

/-- C1, amended, at the request of `TestServeHTTP_RecordsAndStripsHeader`, sent
once and sent twice. -/
theorem C1_witness :
    ("/users/\x7bid\x7d" : GoString) ≠ "" ∧
    ValidString "/users/\x7bid\x7d" = true ∧
    ValidString testRequest.Method = true ∧
    (ServeHTTP testMetrics freshWriter testRequest recordsAndStripsHandler 1000000).panicked
      = false ∧
    (ServeHTTP testMetrics freshWriter testRequest recordsAndStripsHandler 1000000).m.durs
      = testMetrics.durs.addSample "GET" "/users/\x7bid\x7d" 1000000 ∧
    durationCount
        (ServeHTTP testMetrics freshWriter testRequest recordsAndStripsHandler 1000000).m.durs
        "GET" "/users/\x7bid\x7d" = 0 + 1 ∧
    durationCount
        (ServeHTTP
          (ServeHTTP testMetrics freshWriter testRequest recordsAndStripsHandler 1000000).m
          freshWriter testRequest recordsAndStripsHandler 2000000).m.durs
        "GET" "/users/\x7bid\x7d" = 0 + 2 :=
  have hshape : SetsThenWritesHeaderOnce testMetrics.Header "/users/\x7bid\x7d"
      (recordsAndStripsHandler testRequest).ops :=
    ⟨[], "X-Route-Pattern", [], statusOK, [.Write [111, 107]], rfl, rfl,
      by simp, by simp, by simp [isWriteHeader]⟩
  have h := C1_one_observation_on_method_route testMetrics freshWriter testRequest
    recordsAndStripsHandler 1000000 "/users/\x7bid\x7d" (by decide) (by decide) (by decide)
    hshape
  ⟨by decide, by decide, by decide, h.1, h.2.1, h.2.2.2.1,
    (h.2.2.2.2.2 freshWriter testRequest recordsAndStripsHandler 2000000 rfl hshape).2⟩

/-- C3: the error returned by `ServeHTTP` is the value returned by the downstream
handler, nil or not, whether or not a label was captured and an observation
recorded; the call returns it unless a label was captured and `WithLabelValues`
panics on a label value that is not valid UTF-8. -/
theorem C3_error_returned_unchanged (m : Metrics) (w : ResponseWriter) (r : Request)
    (next : Handler) (elapsed : Nat) :
    (ServeHTTP m w r next elapsed).err = (next r).err ∧
    ((ServeHTTP m w r next elapsed).panicked = true ↔
      (runHandler m { w := w, route := "" } (next r).ops).route ≠ "" ∧
      validateLabelValues
        [r.Method, (runHandler m { w := w, route := "" } (next r).ops).route] = false) := by
  refine ⟨ServeHTTP_err m w r next elapsed, ?_⟩
  rw [ServeHTTP_panicked]
  by_cases hroute : (runHandler m { w := w, route := "" } (next r).ops).route = ""
  · simp [hroute]
  · simp [hroute]

/-- C7: when the downstream handler never calls `WriteHeader`, the captured label
stays empty and `ServeHTTP` records nothing, whatever header mutations and body
writes the handler made; the call does not panic and the handler's error is
returned. -/
theorem C7_no_WriteHeader_no_observation (m : Metrics) (w : ResponseWriter) (r : Request)
    (next : Handler) (elapsed : Nat)
    (hno : ∀ op ∈ (next r).ops, isWriteHeader op = false) :
    (runHandler m { w := w, route := "" } (next r).ops).route = "" ∧
    (ServeHTTP m w r next elapsed).m.durs = m.durs ∧
    (ServeHTTP m w r next elapsed).err = (next r).err ∧
    (ServeHTTP m w r next elapsed).panicked = false := by
  have hroute := runHandler_route_of_no_WriteHeader m (next r).ops { w := w, route := "" } hno
  refine ⟨hroute, ?_, ServeHTTP_err m w r next elapsed, ?_⟩
  · rw [ServeHTTP_durs, hroute]
    rfl
  · rw [ServeHTTP_panicked, hroute]
    rfl

/-- C7 at the handler of `TestServeHTTP_ErrorPropagates_NoMetric`, which sets the
header to a non-empty value and returns an error. -/
theorem C7_witness :
    (runHandler testMetrics { w := freshWriter, route := "" }
        (errorPropagatesHandler testRequest).ops).route = "" ∧
    (ServeHTTP testMetrics freshWriter testRequest errorPropagatesHandler 5).m.durs
      = testMetrics.durs ∧
    (ServeHTTP testMetrics freshWriter testRequest errorPropagatesHandler 5).err
      = (errorPropagatesHandler testRequest).err ∧
    (ServeHTTP testMetrics freshWriter testRequest errorPropagatesHandler 5).panicked = false :=
  C7_no_WriteHeader_no_observation testMetrics freshWriter testRequest errorPropagatesHandler 5
    (by simp [errorPropagatesHandler, isWriteHeader])

/-- C9: `Validate` returns nil; afterwards `Header` is "X-Route-Pattern" when it
was empty and its previous value otherwise, the histogram vector is untouched,
and a second call changes nothing. -/
theorem C9_Validate_defaults_header (m : Metrics) :
    (Validate m).2 = none ∧
    (Validate m).1.Header = (if m.Header = "" then "X-Route-Pattern" else m.Header) ∧
    (Validate m).1.durs = m.durs ∧
    Validate (Validate m).1 = Validate m := by
  unfold Validate
  by_cases h : m.Header = ""
  · simp [h]
  · simp [h]

/-- C2 as stated fails for what the client sees: a handler that sets the header
and then calls `WriteHeader` explicitly, but writes a body or flushes before that
call, sends the header to the client in the final header block; and after a 1xx
`WriteHeader`, a header set again and committed by a body `Write` reaches the
client in the final block. -/
theorem C2_counterexample :
    (writeBeforeWriteHeaderHandler testRequest).ops
      = [] ++ WriterOp.HeaderSet "X-Route-Pattern" "/a" :: [WriterOp.Write [111, 107]]
          ++ WriterOp.WriteHeader statusOK :: [] ∧
    (ServeHTTP testMetrics freshWriter testRequest writeBeforeWriteHeaderHandler 7).w.sent
      = ([(200, [("X-Route-Pattern", ["/a"])])] : List (Nat × Header)) ∧
    (ServeHTTP testMetrics freshWriter testRequest flushBeforeWriteHeaderHandler 7).w.sent
      = ([(200, [("X-Route-Pattern", ["/a"])])] : List (Nat × Header)) ∧
    Header.Has [("X-Route-Pattern", ["/a"])] testMetrics.Header = true ∧
    (ServeHTTP testMetrics freshWriter testRequest earlyHintsHandler 7).w.sent
      = ([(103, []), (200, [("X-Route-Pattern", ["/b"])])] : List (Nat × Header)) ∧
    Header.Has [("X-Route-Pattern", ["/b"])] testMetrics.Header = true := by
  refine ⟨rfl, by decide, by decide, by decide, by decide, by decide⟩

/-- C2, amended: when the downstream handler sets the configured header to a
non-empty value, leaves it untouched and then calls `WriteHeader`, the header map
handed to the underlying writer at that call has no entry for the configured
header; and when nothing was sent before that call (the response is not committed
on entry and the handler made only header mutations before the call), the header
block sent by it is that map, and it is the only block the client receives when
the status is final. -/
theorem C2_header_absent_at_WriteHeader (m : Metrics) (w : ResponseWriter) (r : Request)
    (next : Handler) (elapsed : Nat) (pre mid post : List WriterOp) (k : String) (v : GoString)
    (code : StatusCode)
    (hops : (next r).ops
      = pre ++ WriterOp.HeaderSet k v :: mid ++ WriterOp.WriteHeader code :: post)
    (hk : CanonicalMIMEHeaderKey k = CanonicalMIMEHeaderKey m.Header) (hv : v ≠ "")
    (hmid : ∀ op ∈ mid, isWriteHeader op = false ∧ touchesHeader m.Header op = false) :
    Header.Has (runHandler m { w := w, route := "" }
        (pre ++ WriterOp.HeaderSet k v :: mid ++ [WriterOp.WriteHeader code])).w.header
      m.Header = false ∧
    (w.wroteHeader = false → (∀ op ∈ pre, isHeaderOp op = true) →
      (∀ op ∈ mid, isHeaderOp op = true) →
      ∃ hdr rest, Header.Has hdr m.Header = false ∧
        (ServeHTTP m w r next elapsed).w.sent = w.sent ++ (code.code, hdr) :: rest ∧
        (code.informational = false → rest = [])) := by
  -- the state in which `WriteHeader` is called
  have hsplit : ∀ tail : List WriterOp,
      runHandler m { w := w, route := "" }
          (pre ++ WriterOp.HeaderSet k v :: mid ++ WriterOp.WriteHeader code :: tail)
        = runHandler m (writeHeaderHook m
            (runHandler m (wrappedCall m (runHandler m { w := w, route := "" } pre)
              (.HeaderSet k v)) mid) code) tail := by
    intro tail
    rw [show pre ++ WriterOp.HeaderSet k v :: mid ++ WriterOp.WriteHeader code :: tail
        = pre ++ (WriterOp.HeaderSet k v :: (mid ++ WriterOp.WriteHeader code :: tail)) by simp]
    rw [runHandler_append, runHandler_cons, runHandler_append, runHandler_cons]
    rfl
  have hget : Header.Get (runHandler m (wrappedCall m (runHandler m { w := w, route := "" } pre)
      (.HeaderSet k v)) mid).w.header m.Header = v := by
    rw [Header.Get_congr _ _ _ (runHandler_lookup m mid _ hmid)]
    exact Header.Get_Set_same _ _ _ _ hk
  have hhas : Header.Has (writeHeaderHook m
      (runHandler m (wrappedCall m (runHandler m { w := w, route := "" } pre)
        (.HeaderSet k v)) mid) code).w.header m.Header = false := by
    rw [writeHeaderHook_header, hget]
    simp [hv, Header.Has_Del_same]
  refine ⟨?_, ?_⟩
  · rw [hsplit []]
    exact hhas
  · intro hw hpre hmidh
    have h1 := runHandler_headerOps m pre { w := w, route := "" } hpre
    have h2 := runHandler_headerOps m mid
      (wrappedCall m (runHandler m { w := w, route := "" } pre) (.HeaderSet k v)) hmidh
    have h3 := wrappedCall_headerOp m (runHandler m { w := w, route := "" } pre)
      (.HeaderSet k v) rfl
    have hwrote : (runHandler m (wrappedCall m (runHandler m { w := w, route := "" } pre)
        (.HeaderSet k v)) mid).w.wroteHeader = false := by
      rw [h2.1, h3.1, h1.1]; exact hw
    have hsent0 : (runHandler m (wrappedCall m (runHandler m { w := w, route := "" } pre)
        (.HeaderSet k v)) mid).w.sent = w.sent := by
      rw [h2.2, h3.2, h1.2]
    have hsent1 := writeHeaderHook_sent m
      (runHandler m (wrappedCall m (runHandler m { w := w, route := "" } pre)
        (.HeaderSet k v)) mid) code
    rw [hwrote, hsent0] at hsent1
    simp only [Bool.false_eq_true, if_false] at hsent1
    obtain ⟨more, hmore⟩ := runHandler_sent_extends m post (writeHeaderHook m
      (runHandler m (wrappedCall m (runHandler m { w := w, route := "" } pre)
        (.HeaderSet k v)) mid) code)
    refine ⟨_, more, hhas, ?_, ?_⟩
    · rw [ServeHTTP_w, hops, hsplit post, hmore, hsent1]
      simp
    · intro hfinal
      have hw2 := writeHeaderHook_wrote m
        (runHandler m (wrappedCall m (runHandler m { w := w, route := "" } pre)
          (.HeaderSet k v)) mid) code hfinal
      have hsame := (runHandler_of_wrote m post _ hw2).2
      rw [hsame] at hmore
      exact List.self_eq_append_right.mp hmore

/-- C2, amended, at the request of `TestServeHTTP_RecordsAndStripsHeader`. -/
theorem C2_witness :
    ("/users/\x7bid\x7d" : GoString) ≠ "" ∧
    Header.Has (runHandler testMetrics { w := freshWriter, route := "" }
        ([] ++ WriterOp.HeaderSet "X-Route-Pattern" "/users/\x7bid\x7d" :: []
          ++ [WriterOp.WriteHeader statusOK])).w.header
      testMetrics.Header = false ∧
    (∃ hdr rest, Header.Has hdr testMetrics.Header = false ∧
      (ServeHTTP testMetrics freshWriter testRequest recordsAndStripsHandler 1000000).w.sent
        = freshWriter.sent ++ (statusOK.code, hdr) :: rest ∧
      (statusOK.informational = false → rest = [])) :=
  have h := C2_header_absent_at_WriteHeader testMetrics freshWriter testRequest
    recordsAndStripsHandler 1000000 [] [] [.Write [111, 107]] "X-Route-Pattern"
    "/users/\x7bid\x7d" statusOK rfl rfl (by decide) (by simp)
  ⟨by decide, h.1, h.2 rfl (by simp) (by simp)⟩

/-- C4 as stated fails: on a response writer that already carries the header (set
by a handler earlier in the chain), a downstream handler that never sets the
header and writes the status 200 makes `ServeHTTP` record one observation, on the
series ("GET", "/up"). -/
theorem C4_counterexample :
    (∀ op ∈ (plainHandler testRequest).ops, setsHeader testMetrics.Header op = false) ∧
    totalCount testMetrics.durs = 0 ∧
    (ServeHTTP testMetrics presetWriter testRequest plainHandler 7).m.durs
      = ([(("GET", "/up"), { sampleCount := 1, sampleSum := 7 })] : HistogramVec) ∧
    durationCount (ServeHTTP testMetrics presetWriter testRequest plainHandler 7).m.durs
      "GET" "/up" = 1 := by
  refine ⟨by simp [plainHandler, setsHeader], rfl, by decide, by decide⟩

/-- C4, amended: when the response writer carries no value for the configured
header on entry and the downstream handler never sets that header, `ServeHTTP`
records nothing, whatever status the handler writes, whatever body it writes and
whatever error it returns: the histogram vector is unchanged and the call does
not panic. -/
theorem C4_no_header_no_observation (m : Metrics) (w : ResponseWriter) (r : Request)
    (next : Handler) (elapsed : Nat)
    (hw : Header.Get w.header m.Header = "")
    (hnever : ∀ op ∈ (next r).ops, setsHeader m.Header op = false) :
    (ServeHTTP m w r next elapsed).m.durs = m.durs ∧
    totalCount (ServeHTTP m w r next elapsed).m.durs = totalCount m.durs ∧
    (∀ method route : GoString,
      durationCount (ServeHTTP m w r next elapsed).m.durs method route
        = durationCount m.durs method route) ∧
    (ServeHTTP m w r next elapsed).panicked = false := by
  have hroute := runHandler_keeps_empty m (next r).ops { w := w, route := "" } hnever hw
  have hd : (ServeHTTP m w r next elapsed).m.durs = m.durs := by
    rw [ServeHTTP_durs, hroute]
    rfl
  refine ⟨hd, by rw [hd], fun _ _ => by rw [hd], ?_⟩
  rw [ServeHTTP_panicked, hroute]
  rfl

/-- C4, amended, at the request of `TestServeHTTP_SkipsWhenHeaderMissing`. -/
theorem C4_witness :
    Header.Get freshWriter.header testMetrics.Header = "" ∧
    (ServeHTTP testMetrics freshWriter testRequest skipsWhenHeaderMissingHandler 9).m.durs
      = testMetrics.durs :=
  ⟨by decide,
   (C4_no_header_no_observation testMetrics freshWriter testRequest
      skipsWhenHeaderMissingHandler 9 (by decide)
      (by simp [skipsWhenHeaderMissingHandler, setsHeader])).1⟩

/-- C5 as stated fails: a handler that sets the header and writes a body without
calling `WriteHeader` sends the header to the client, and so does a handler that
sets the header to the empty value and calls `WriteHeader`. -/
theorem C5_counterexample :
    (ServeHTTP testMetrics freshWriter testRequest writeWithoutWriteHeaderHandler 7).w.sent
      = ([(200, [("X-Route-Pattern", ["/a"])])] : List (Nat × Header)) ∧
    Header.Has [("X-Route-Pattern", ["/a"])] testMetrics.Header = true ∧
    (ServeHTTP testMetrics freshWriter testRequest emptyValueHandler 7).w.sent
      = ([(200, [("X-Route-Pattern", [""])])] : List (Nat × Header)) ∧
    Header.Has [("X-Route-Pattern", [""])] testMetrics.Header = true := by
  refine ⟨by decide, by decide, by decide, by decide⟩

/-- C5, amended: when every header block of the run leaves through a `WriteHeader`
call made on the wrapped writer, each header block sent during `ServeHTTP` has an
empty value (`Header.Get`) for the configured header: an entry whose first value
is non-empty was removed before the block was forwarded, an entry whose first
value is empty was left in place. -/
theorem C5_blocks_sent_by_WriteHeader (m : Metrics) (w : ResponseWriter) (r : Request)
    (next : Handler) (elapsed : Nat)
    (hcommit : commitsByWriteHeader (next r).ops = true) :
    ∀ b ∈ (ServeHTTP m w r next elapsed).w.sent,
      b ∈ w.sent ∨ Header.Get b.2 m.Header = "" := by
  rw [ServeHTTP_w]
  exact runHandler_sent_clean m (next r).ops { w := w, route := "" } hcommit

/-- C5, amended, at the request of `TestServeHTTP_RecordsAndStripsHeader`. -/
theorem C5_witness :
    commitsByWriteHeader (recordsAndStripsHandler testRequest).ops = true ∧
    ∀ b ∈ (ServeHTTP testMetrics freshWriter testRequest recordsAndStripsHandler 3).w.sent,
      b ∈ freshWriter.sent ∨ Header.Get b.2 testMetrics.Header = "" :=
  ⟨by decide,
   C5_blocks_sent_by_WriteHeader testMetrics freshWriter testRequest recordsAndStripsHandler 3
     (by decide)⟩

/-- C6 as stated fails: the handler of `TestServeHTTP_ErrorPropagates_NoMetric`
sets the header to a non-empty value and afterwards returns a non-nil error, and
`ServeHTTP` records no observation (it returns the error); and a handler that
sets the header to a value that is not valid UTF-8, writes the status 500 and
returns an error makes `ServeHTTP` panic, with no observation and no error
returned. -/
theorem C6_counterexample :
    (errorPropagatesHandler testRequest).err = some wantErr ∧
    setsHeader testMetrics.Header (WriterOp.HeaderSet "X-Route-Pattern" "/users/\x7bid\x7d") = true ∧
    (ServeHTTP testMetrics freshWriter testRequest errorPropagatesHandler 7).m.durs = [] ∧
    totalCount (ServeHTTP testMetrics freshWriter testRequest errorPropagatesHandler 7).m.durs = 0 ∧
    (ServeHTTP testMetrics freshWriter testRequest errorPropagatesHandler 7).err = some wantErr ∧
    (ServeHTTP testMetrics freshWriter testRequest errorPropagatesHandler 7).panicked = false ∧
    invalidLabel ≠ "" ∧
    (invalidLabelErrorHandler testRequest).err = some wantErr ∧
    (ServeHTTP testMetrics freshWriter testRequest invalidLabelErrorHandler 7).panicked = true ∧
    totalCount (ServeHTTP testMetrics freshWriter testRequest invalidLabelErrorHandler 7).m.durs
      = 0 := by
  refine ⟨rfl, by decide, by decide, by decide, by decide, by decide, by decide, rfl,
    by decide, by decide⟩

/-- C6, amended: when the downstream handler sets the configured header to a
non-empty value, calls `WriteHeader` while the header holds that value, and
afterwards returns a non-nil error, and the request method and the label captured
by the run (the value set, when no later `WriteHeader` call follows) are valid
UTF-8, `ServeHTTP` records exactly one observation, labelled with the captured
label, and returns that error. -/
theorem C6_observation_with_error (m : Metrics) (w : ResponseWriter) (r : Request)
    (next : Handler) (elapsed : Nat) (pre mid post : List WriterOp) (k : String)
    (R : GoString) (code : StatusCode) (e : GoError)
    (hops : (next r).ops
      = pre ++ WriterOp.HeaderSet k R :: mid ++ WriterOp.WriteHeader code :: post)
    (hk : CanonicalMIMEHeaderKey k = CanonicalMIMEHeaderKey m.Header) (hR : R ≠ "")
    (hmid : ∀ op ∈ mid, isWriteHeader op = false ∧ touchesHeader m.Header op = false)
    (herr : (next r).err = some e)
    (hmethod : ValidString r.Method = true)
    (hlabel : ValidString (runHandler m { w := w, route := "" } (next r).ops).route = true) :
    (runHandler m { w := w, route := "" } (next r).ops).route ≠ "" ∧
    ((∀ op ∈ post, isWriteHeader op = false) →
      (runHandler m { w := w, route := "" } (next r).ops).route = R) ∧
    (ServeHTTP m w r next elapsed).m.durs = m.durs.addSample r.Method
      (runHandler m { w := w, route := "" } (next r).ops).route elapsed ∧
    totalCount (ServeHTTP m w r next elapsed).m.durs = totalCount m.durs + 1 ∧
    (ServeHTTP m w r next elapsed).panicked = false ∧
    (ServeHTTP m w r next elapsed).err = some e := by
  have hsplit : runHandler m { w := w, route := "" } (next r).ops
      = runHandler m (runHandler m { w := w, route := "" }
          (pre ++ WriterOp.HeaderSet k R :: mid ++ WriterOp.WriteHeader code :: [])) post := by
    rw [hops, ← runHandler_append]
    congr 1
    simp
  have hfirst : (runHandler m { w := w, route := "" }
      (pre ++ WriterOp.HeaderSet k R :: mid ++ WriterOp.WriteHeader code :: [])).route = R :=
    runHandler_route_of_set m _ pre mid [] k R code hR hk hmid (by simp)
  have hne : (runHandler m { w := w, route := "" } (next r).ops).route ≠ "" := by
    rw [hsplit]
    exact runHandler_route_ne m post _ (by rw [hfirst]; exact hR)
  have hvalid := validateLabelValues_pair r.Method _ hmethod hlabel
  have hd : (ServeHTTP m w r next elapsed).m.durs = m.durs.addSample r.Method
      (runHandler m { w := w, route := "" } (next r).ops).route elapsed := by
    rw [ServeHTTP_durs, if_neg hne, Observe_of_valid _ _ _ _ hvalid]
  refine ⟨hne, ?_, hd, by rw [hd, totalCount_addSample], ?_, ?_⟩
  · intro hpost
    rw [hsplit, runHandler_route_of_no_WriteHeader m post _ hpost, hfirst]
  · rw [ServeHTTP_panicked, if_neg hne, hvalid]
    rfl
  · rw [ServeHTTP_err, herr]

/-- C6, amended, at a handler that sets the header, writes the status 500 and
returns `wantErr`. -/
theorem C6_witness :
    (failsAfterWriteHeaderHandler testRequest).err = some wantErr ∧
    ValidString testRequest.Method = true ∧
    (runHandler testMetrics { w := freshWriter, route := "" }
        (failsAfterWriteHeaderHandler testRequest).ops).route = "/users/\x7bid\x7d" ∧
    totalCount (ServeHTTP testMetrics freshWriter testRequest failsAfterWriteHeaderHandler 7).m.durs
      = totalCount testMetrics.durs + 1 ∧
    (ServeHTTP testMetrics freshWriter testRequest failsAfterWriteHeaderHandler 7).panicked
      = false ∧
    (ServeHTTP testMetrics freshWriter testRequest failsAfterWriteHeaderHandler 7).err
      = some wantErr :=
  have h := C6_observation_with_error testMetrics freshWriter testRequest
    failsAfterWriteHeaderHandler 7 [] [] [] "X-Route-Pattern" "/users/\x7bid\x7d"
    ⟨500, by decide⟩ wantErr rfl rfl (by decide) (by simp) rfl (by decide) (by decide)
  ⟨rfl, by decide, h.2.1 (by simp), h.2.2.2.1, h.2.2.2.2.1, h.2.2.2.2.2⟩

/-- C8 as stated fails: the handler sets the header to "/a" and calls
`WriteHeader`, then sets it to "/b" and calls `WriteHeader` again; the value at
the first call was "/a", yet the observation is recorded on the series
("GET", "/b") and the series ("GET", "/a") receives nothing. -/
theorem C8_counterexample :
    Header.Get (runHandler testMetrics { w := freshWriter, route := "" }
        [WriterOp.HeaderSet "X-Route-Pattern" "/a"]).w.header testMetrics.Header = "/a" ∧
    (runHandler testMetrics { w := freshWriter, route := "" }
        [WriterOp.HeaderSet "X-Route-Pattern" "/a", WriterOp.WriteHeader statusOK]).route = "/a" ∧
    (runHandler testMetrics { w := freshWriter, route := "" }
        (secondWriteHeaderHandler testRequest).ops).route = "/b" ∧
    (ServeHTTP testMetrics freshWriter testRequest secondWriteHeaderHandler 7).m.durs
      = ([(("GET", "/b"), { sampleCount := 1, sampleSum := 7 })] : HistogramVec) ∧
    durationCount (ServeHTTP testMetrics freshWriter testRequest secondWriteHeaderHandler 7).m.durs
      "GET" "/a" = 0 := by
  refine ⟨by decide, by decide, by decide, by decide, by decide⟩

/-- C8, amended: the hook captures at every `WriteHeader` call, so the label used
for the observation is the value the configured header has at the last
`WriteHeader` call when that value is non-empty, and the label captured before
that call otherwise; setting the header to a non-empty value after an earlier
`WriteHeader` call and calling `WriteHeader` again replaces the captured label by
the new value. -/
theorem C8_label_of_last_WriteHeader (m : Metrics) (w : ResponseWriter) (r : Request)
    (next : Handler) (elapsed : Nat) (pre post : List WriterOp) (code : StatusCode)
    (hops : (next r).ops = pre ++ WriterOp.WriteHeader code :: post)
    (hpost : ∀ op ∈ post, isWriteHeader op = false) :
    (runHandler m { w := w, route := "" } (next r).ops).route
      = (if Header.Get (runHandler m { w := w, route := "" } pre).w.header m.Header ≠ ""
         then Header.Get (runHandler m { w := w, route := "" } pre).w.header m.Header
         else (runHandler m { w := w, route := "" } pre).route) ∧
    (ServeHTTP m w r next elapsed).m.durs
      = (if (runHandler m { w := w, route := "" } (next r).ops).route = "" then m.durs
         else m.durs.Observe r.Method
           (runHandler m { w := w, route := "" } (next r).ops).route elapsed) ∧
    (∀ (pre1 mid : List WriterOp) (k : String) (v : GoString),
      pre = pre1 ++ WriterOp.HeaderSet k v :: mid →
      CanonicalMIMEHeaderKey k = CanonicalMIMEHeaderKey m.Header → v ≠ "" →
      (∀ op ∈ mid, isWriteHeader op = false ∧ touchesHeader m.Header op = false) →
      (runHandler m { w := w, route := "" } (next r).ops).route = v ∧
      (ServeHTTP m w r next elapsed).m.durs = m.durs.Observe r.Method v elapsed) := by
  refine ⟨?_, ServeHTTP_durs m w r next elapsed, ?_⟩
  · rw [hops, runHandler_append, runHandler_cons,
      runHandler_route_of_no_WriteHeader m post _ hpost]
    exact writeHeaderHook_route m _ code
  · intro pre1 mid k v hpre hk hv hmid
    have hroute : (runHandler m { w := w, route := "" } (next r).ops).route = v := by
      rw [hops, hpre,
        show pre1 ++ WriterOp.HeaderSet k v :: mid ++ WriterOp.WriteHeader code :: post
          = pre1 ++ WriterOp.HeaderSet k v :: mid ++ WriterOp.WriteHeader code :: post from rfl]
      exact runHandler_route_of_set m _ pre1 mid post k v code hv hk hmid hpost
    exact ⟨hroute, by rw [ServeHTTP_durs, hroute, if_neg hv]⟩

/-- C8, amended, at the handler that calls `WriteHeader` twice. -/
theorem C8_witness :
    (runHandler testMetrics { w := freshWriter, route := "" }
        (secondWriteHeaderHandler testRequest).ops).route = "/b" ∧
    (ServeHTTP testMetrics freshWriter testRequest secondWriteHeaderHandler 7).m.durs
      = testMetrics.durs.Observe testRequest.Method "/b" 7 :=
  (C8_label_of_last_WriteHeader testMetrics freshWriter testRequest secondWriteHeaderHandler 7
    [.HeaderSet "X-Route-Pattern" "/a", .WriteHeader statusOK, .HeaderSet "X-Route-Pattern" "/b"]
    [] statusOK rfl (by simp)).2.2
    [.HeaderSet "X-Route-Pattern" "/a", .WriteHeader statusOK] [] "X-Route-Pattern" "/b"
    rfl rfl (by decide) (by simp)

/-- C10: for every header name `H` given as one argument token (any token text
but the opening brace, which the dispenser reads as the start of a block),
`UnmarshalCaddyfile` on the positional form `route_metrics H` and on the block
form with the line `header H` both return nil and leave `Header` equal to `H`,
so both forms produce the same module. -/
theorem C10_positional_and_block_forms (m : Metrics) (file H : String)
    (pline line hline cline : Nat) (hH : H ≠ "\x7b") :
    UnmarshalCaddyfile m (NewDispenser (positionalForm file pline H))
      = some { m := { m with Header := H },
               d := { tokens := positionalForm file pline H, cursor := 1, nesting := 0 },
               err := none } ∧
    UnmarshalCaddyfile m (NewDispenser (blockForm file line hline cline H))
      = some { m := { m with Header := H },
               d := { tokens := blockForm file line hline cline H, cursor := 4, nesting := 0 },
               err := none } ∧
    (UnmarshalCaddyfile m (NewDispenser (positionalForm file pline H))).map (fun res => res.m)
      = (UnmarshalCaddyfile m (NewDispenser (blockForm file line hline cline H))).map
          (fun res => res.m) := by
  have hpos : UnmarshalCaddyfile m (NewDispenser (positionalForm file pline H))
      = some { m := { m with Header := H },
               d := { tokens := positionalForm file pline H, cursor := 1, nesting := 0 },
               err := none } := by
    simp [UnmarshalCaddyfile, directiveLoop, blockLoop, NewDispenser, positionalForm,
      Dispenser.Next, Dispenser.NextArg, Dispenser.nextOnSameLine, Dispenser.NextBlock,
      Dispenser.Val, Dispenser.tokenAt, isNextOnNewLine, Token.NumLineBreaks, hH]
  have hblock : UnmarshalCaddyfile m (NewDispenser (blockForm file line hline cline H))
      = some { m := { m with Header := H },
               d := { tokens := blockForm file line hline cline H, cursor := 4, nesting := 0 },
               err := none } := by
    simp [UnmarshalCaddyfile, directiveLoop, blockLoop, NewDispenser, blockForm,
      Dispenser.Next, Dispenser.NextArg, Dispenser.nextOnSameLine, Dispenser.NextBlock,
      Dispenser.Val, Dispenser.tokenAt, isNextOnNewLine, Token.NumLineBreaks, hH]
  refine ⟨hpos, hblock, ?_⟩
  rw [hpos, hblock]
  rfl

/-- C10 at the inputs of `TestUnmarshalCaddyfile_PositionalHeader` and
`TestUnmarshalCaddyfile_BlockHeader`, for the header name "X-My-Route". -/
theorem C10_witness :
    "X-My-Route" ≠ "\x7b" ∧
    (UnmarshalCaddyfile { Header := "", durs := [] }
        (NewDispenser (positionalForm "Testfile" 1 "X-My-Route"))
      = some { m := { Header := "X-My-Route", durs := [] },
               d := { tokens := positionalForm "Testfile" 1 "X-My-Route", cursor := 1,
                      nesting := 0 },
               err := none } ∧
    UnmarshalCaddyfile { Header := "", durs := [] }
        (NewDispenser (blockForm "Testfile" 2 3 4 "X-My-Route"))
      = some { m := { Header := "X-My-Route", durs := [] },
               d := { tokens := blockForm "Testfile" 2 3 4 "X-My-Route", cursor := 4,
                      nesting := 0 },
               err := none } ∧
    (UnmarshalCaddyfile { Header := "", durs := [] }
        (NewDispenser (positionalForm "Testfile" 1 "X-My-Route"))).map (fun res => res.m)
      = (UnmarshalCaddyfile { Header := "", durs := [] }
          (NewDispenser (blockForm "Testfile" 2 3 4 "X-My-Route"))).map (fun res => res.m)) :=
  ⟨by decide,
   C10_positional_and_block_forms { Header := "", durs := [] } "Testfile" "X-My-Route" 1 2 3 4
     (by decide)⟩

end RouteMetrics
